import Mathlib

/-!
Verification development for the SDP interface layer (`src/sdpi/sdpi.c`) of SCIP-SDP.

The C code is shallowly embedded: `double` becomes `ℚ` (all arithmetic in the modelled
fragments is exact field arithmetic), C `int` indices become `ℕ` (or `ℤ` where signs
matter), arrays become lists accessed with `List.getD`/`List.set`, and the external
collaborators (the backend SDP solver, the LAPACK eigenvalue routine, the one-variable
SDP solver) become explicit oracle parameters.  The embedding models the release build
(`NDEBUG`, `SCIP_DEBUG` undefined, as in the source): `assert` statements are no-ops and
`SCIPdebugMessage(...)` does not evaluate its arguments.
-/

set_option linter.unusedVariables false

namespace SDPI

/-- Infinity value of the SDP interface (`SCIPsdpiInfinity`, delegated to the backend
solver; the standard backend value 1e20 is used). -/
def sdpiInfinity : ℚ := 10 ^ 20

/-- The `SCIP_INVALID` sentinel (1e99 in scip/def.h). -/
def scipInvalid : ℚ := 10 ^ 99

/-- One variable SDP status (`SCIP_Onevar_Status` in sdpi.c). -/
inductive OnevarStatus where
  | unsolved
  | optimal
  | infeasible
  deriving DecidableEq

/-- One sparse entry of a symmetric matrix: (row, col, value); the source stores the
lower triangle only (row ≥ col). -/
abbrev Ent := ℕ × ℕ × ℚ

/-- One SDP block: its size, the participating variables with their sparse coefficient
matrices (`sdpvar[b]` zipped with `sdprow/sdpcol/sdpval[b]`), and the constant matrix
(`sdpconstrow/col/val[b]`). -/
structure SdpBlock where
  blocksize : ℕ
  blockvars : List (ℕ × List Ent)
  constEnt : List Ent
  deriving DecidableEq

/-- The SDPI problem state (`struct SCIP_SDPi`), restricted to the fields the modelled
operations read or write.  Array capacities (`maxnvars`, ...) are not modelled: lists
always hold exactly the logical contents. -/
structure Sdpi where
  nvars : ℕ
  obj : List ℚ
  lb : List ℚ
  ub : List ℚ
  isintegral : List Bool
  sdpblocks : List SdpBlock
  nlpcons : ℕ
  lplhs : List ℚ
  lprhs : List ℚ
  lpnnonz : ℕ
  lpbeg : List ℕ
  lpind : List ℕ
  lpval : List ℚ
  solved : Bool
  infeasible : Bool
  allfixed : Bool
  penalty : Bool
  epsilon : ℚ
  gaptol : ℚ
  feastol : ℚ
  penaltyparam : ℚ
  maxpenaltyparam : ℚ
  npenaltyincr : ℕ
  peninfeasadjust : ℚ
  sdpilb : List ℚ
  sdpiub : List ℚ
  sdpilbrowidx : List ℤ
  sdpiubrowidx : List ℤ
  sdpid : ℕ
  ninfeasible : ℕ
  nallfixed : ℕ
  nonevarsdp : ℕ
  nsdpcalls : ℕ
  niterations : ℕ
  solvedonevarsdp : OnevarStatus
  onevarsdpobjval : ℚ
  onevarsdpoptval : ℚ
  onevarsdpidx : ℤ
  bestbound : ℚ
  deriving DecidableEq

/-- Release-build `isFixed` (sdpi.c line 350): the upper bound is at most epsilon away
from the lower bound, on the given working bound arrays. -/
def isFixedB (epsilon : ℚ) (sdpilb sdpiub : List ℚ) (v : ℕ) : Bool :=
  sdpiub.getD v 0 - sdpilb.getD v 0 ≤ epsilon

/-
Problem mutation API (sdpi.c lines 2525–2858).
-/

/-- `SCIPsdpiAddLPRows` (sdpi.c lines 2529–2605).  Memory handling is dropped; the data
copies and the flag updates are kept exactly.  Note which flags are reset: `solved` and
`infeasible`, but not `allfixed` and not `penalty`; with `nrows = 0` the function
returns without touching anything. -/
def SCIPsdpiAddLPRows (sdpi : Sdpi) (nrows : ℕ) (lhs rhs : List ℚ)
    (nnonz : ℕ) (beg : List ℕ) (ind : List ℕ) (val : List ℚ) : Sdpi :=
  if nrows = 0 then sdpi
  else if sdpi.nlpcons = 0 then
    { sdpi with
      lplhs := lhs.take nrows
      lprhs := rhs.take nrows
      lpbeg := beg.take nrows
      lpind := ind.take nnonz
      lpval := val.take nnonz
      nlpcons := nrows
      lpnnonz := nnonz
      solved := false
      infeasible := false
      nsdpcalls := 0
      niterations := 0 }
  else
    -- note: the source copies `beg` verbatim, without offsetting by the old lpnnonz
    { sdpi with
      lplhs := sdpi.lplhs.take sdpi.nlpcons ++ lhs.take nrows
      lprhs := sdpi.lprhs.take sdpi.nlpcons ++ rhs.take nrows
      lpbeg := sdpi.lpbeg.take sdpi.nlpcons ++ beg.take nrows
      lpind := sdpi.lpind.take sdpi.lpnnonz ++ ind.take nnonz
      lpval := sdpi.lpval.take sdpi.lpnnonz ++ val.take nnonz
      nlpcons := sdpi.nlpcons + nrows
      lpnnonz := sdpi.lpnnonz + nnonz
      solved := false
      infeasible := false
      nsdpcalls := 0
      niterations := 0 }

/-- The shift of `lplhs`/`lprhs`/`lpbeg` performed by `SCIPsdpiDelLPRows`
(sdpi.c lines 2646–2651): positions `firstrow .. nlpcons-1-deletedrows` receive the
value `deletedrows` places further right; all other positions keep their value. -/
def delShift {α : Type} [Inhabited α] (l : List α) (len firstrow deletedrows : ℕ) : List α :=
  (List.range l.length).map (fun j =>
    if firstrow ≤ j ∧ j + deletedrows ≤ len - 1 then l.getD (j + deletedrows) default
    else l.getD j default)

/-- `SCIPsdpiDelLPRows` (sdpi.c lines 2608–2677), translated with all its slips intact:
`nextbeg` is taken from `lpbeg[lastrow+1]` only when `lastrow == nlpcons` (dead test,
since `lastrow < nlpcons`); `lpbeg[firstrow]` is read after the shift loop already
overwrote it; `deletednonz` carries a spurious `+ 1`; only `lpind` is shifted, `lpval`
is not; and the `lpbeg` entries of the surviving rows are never reduced by
`deletednonz`.  Out-of-range reads (undefined behaviour in C) yield 0. -/
def SCIPsdpiDelLPRows (sdpi : Sdpi) (firstrow lastrow : ℕ) : Sdpi :=
  if firstrow = 0 ∧ lastrow = sdpi.nlpcons - 1 then
    { sdpi with
      nlpcons := 0
      lpnnonz := 0
      lplhs := []
      lprhs := []
      lpbeg := []
      lpind := []
      lpval := []
      solved := false
      infeasible := false
      allfixed := false
      nsdpcalls := 0
      niterations := 0 }
  else
    let deletedrows := lastrow - firstrow + 1
    let lplhs' := delShift sdpi.lplhs sdpi.nlpcons firstrow deletedrows
    let lprhs' := delShift sdpi.lprhs sdpi.nlpcons firstrow deletedrows
    let lpbeg' := delShift sdpi.lpbeg sdpi.nlpcons firstrow deletedrows
    let nextbeg := if lastrow = sdpi.nlpcons then sdpi.lpnnonz else lpbeg'.getD (lastrow + 1) 0
    let deletednonz := nextbeg + 1 - lpbeg'.getD firstrow 0
    let lpind' := (List.range sdpi.lpind.length).map (fun j =>
      if nextbeg ≤ j + deletednonz ∧ j + deletednonz ≤ sdpi.lpnnonz - 1 then
        sdpi.lpind.getD (j + deletednonz) 0
      else sdpi.lpind.getD j 0)
    { sdpi with
      nlpcons := sdpi.nlpcons - deletedrows
      lpnnonz := sdpi.lpnnonz - deletednonz
      lplhs := lplhs'.take (sdpi.nlpcons - deletedrows)
      lprhs := lprhs'.take (sdpi.nlpcons - deletedrows)
      lpbeg := lpbeg'.take (sdpi.nlpcons - deletedrows)
      lpind := lpind'.take (sdpi.lpnnonz - deletednonz)
      lpval := sdpi.lpval.take (sdpi.lpnnonz - deletednonz)
      solved := false
      infeasible := false
      allfixed := false
      nsdpcalls := 0
      niterations := 0 }

/-- Loop body of `SCIPsdpiDelLPRowset` (sdpi.c lines 2699–2710); the accumulator holds
the current state, the rewritten `dstat` array and the count of deleted rows. -/
def delRowsetStep (acc : Sdpi × List ℤ × ℕ) (i : ℕ) : Sdpi × List ℤ × ℕ :=
  if acc.2.1.getD i 0 = 1 then
    (SCIPsdpiDelLPRows acc.1 (i - acc.2.2) (i - acc.2.2), (acc.2.1.set i (-1), acc.2.2 + 1))
  else
    (acc.1, (acc.2.1.set i ((i : ℤ) - acc.2.2), acc.2.2))

/-- `SCIPsdpiDelLPRowset` (sdpi.c lines 2680–2720): deletes the rows with `dstat[i] = 1`
one by one via `SCIPsdpiDelLPRows` and rewrites `dstat` to the new positions (-1 for
deleted rows); afterwards resets `solved`, `infeasible` and `allfixed`. -/
def SCIPsdpiDelLPRowset (sdpi : Sdpi) (dstat : List ℤ) : Sdpi × List ℤ :=
  let oldnlpcons := sdpi.nlpcons
  let r := (List.range oldnlpcons).foldl delRowsetStep (sdpi, dstat, 0)
  ({ r.1 with
      solved := false
      infeasible := false
      allfixed := false
      nsdpcalls := 0
      niterations := 0 }, r.2.1)

/-- `SCIPsdpiChgObj` (sdpi.c lines 2759–2786): overwrites the listed objective
coefficients; it resets only `solved` (neither `infeasible` nor `allfixed` nor
`penalty`). -/
def SCIPsdpiChgObj (sdpi : Sdpi) (nvars : ℕ) (ind : List ℕ) (obj : List ℚ) : Sdpi :=
  let obj' := (List.range nvars).foldl (fun acc i =>
    acc.set (ind.getD i 0) (obj.getD i 0)) sdpi.obj
  { sdpi with
    obj := obj'
    solved := false
    nsdpcalls := 0
    niterations := 0 }

/-- `SCIPsdpiChgBounds` (sdpi.c lines 2789–2821): overwrites the listed bounds and
resets `solved`, `infeasible` and `allfixed` (not `penalty`). -/
def SCIPsdpiChgBounds (sdpi : Sdpi) (nvars : ℕ) (ind : List ℕ) (lb ub : List ℚ) : Sdpi :=
  let lb' := (List.range nvars).foldl (fun acc i => acc.set (ind.getD i 0) (lb.getD i 0)) sdpi.lb
  let ub' := (List.range nvars).foldl (fun acc i => acc.set (ind.getD i 0) (ub.getD i 0)) sdpi.ub
  { sdpi with
    lb := lb'
    ub := ub'
    solved := false
    infeasible := false
    allfixed := false
    nsdpcalls := 0
    niterations := 0 }

/-- `SCIPsdpiChgLPLhRhSides` (sdpi.c lines 2824–2858): overwrites the listed row sides
and resets `solved`, `infeasible` and `allfixed` (not `penalty`). -/
def SCIPsdpiChgLPLhRhSides (sdpi : Sdpi) (nrows : ℕ) (ind : List ℕ) (lhs rhs : List ℚ) : Sdpi :=
  let lhs' := (List.range nrows).foldl (fun acc i => acc.set (ind.getD i 0) (lhs.getD i 0)) sdpi.lplhs
  let rhs' := (List.range nrows).foldl (fun acc i => acc.set (ind.getD i 0) (rhs.getD i 0)) sdpi.lprhs
  { sdpi with
    lplhs := lhs'
    lprhs := rhs'
    solved := false
    infeasible := false
    allfixed := false
    nsdpcalls := 0
    niterations := 0 }

/-
Solution queries (sdpi.c lines 4105–4244) and the CHECK_IF_SOLVED guard (lines 134–143).
-/

/-- Return codes produced by the modelled queries (`SCIP_RETCODE`). -/
inductive RetCode where
  | okay
  | lperror
  deriving DecidableEq

/-- Outcome of a query call.  `ret` is a normal C return carrying the return code and
the final contents of the output arguments; `abort` stands for an unchecked contract
violation (a failing `assert` / undefined behaviour) and is never produced by the
modelled queries. -/
inductive QueryOutcome (α : Type) where
  | abort : QueryOutcome α
  | ret : RetCode → α → QueryOutcome α
  deriving DecidableEq

/-- Objective value of a fully fixed problem (sdpi.c lines 4123–4126):
`Σ_v sdpilb[v] * obj[v]`. -/
def objAllFixed (sdpi : Sdpi) : ℚ :=
  ((List.range sdpi.nvars).map (fun v => sdpi.sdpilb.getD v 0 * sdpi.obj.getD v 0)).sum

/-- `SCIPsdpiGetObjval` (sdpi.c lines 4106–4139).  `objval` is the prior content of the
output argument; `solverObjval` stands for the value the backend solver would report
(external collaborator).  `CHECK_IF_SOLVED` makes the call print an error message and
return `SCIP_LPERROR`, leaving the output argument untouched. -/
def SCIPsdpiGetObjval (sdpi : Sdpi) (objval : ℚ) (solverObjval : ℚ) : QueryOutcome ℚ :=
  if ¬ sdpi.solved then .ret .lperror objval
  else if sdpi.infeasible then .ret .okay sdpiInfinity
  else if sdpi.allfixed then .ret .okay (objAllFixed sdpi)
  else if sdpi.solvedonevarsdp ≠ .unsolved then .ret .okay sdpi.onevarsdpobjval
  else .ret .okay solverObjval

/-- `SCIPsdpiGetDualSol` (sdpi.c lines 4194–4244), with both output arguments present.
`objval`/`dualsol` are the prior contents of the output arguments; `solverObjval` and
`solverDual` stand for the backend solver's answers.  Again `CHECK_IF_SOLVED` returns
`SCIP_LPERROR` with the outputs untouched. -/
def SCIPsdpiGetDualSol (sdpi : Sdpi) (objval : ℚ) (dualsol : List ℚ)
    (solverObjval : ℚ) (solverDual : List ℚ) : QueryOutcome (ℚ × List ℚ) :=
  if ¬ sdpi.solved then .ret .lperror (objval, dualsol)
  else if sdpi.infeasible then .ret .okay (sdpiInfinity, dualsol)
  else if sdpi.allfixed then
    .ret .okay (objAllFixed sdpi, (List.range sdpi.nvars).map (fun v => sdpi.sdpilb.getD v 0))
  else if sdpi.solvedonevarsdp ≠ .unsolved then
    .ret .okay (sdpi.onevarsdpobjval,
      ((List.range sdpi.nvars).map (fun v => sdpi.sdpilb.getD v 0)).set
        sdpi.onevarsdpidx.toNat sdpi.onevarsdpoptval)
  else .ret .okay (solverObjval, solverDual)

/-- A concrete base state used by the concrete theorems below: empty problem, default
tolerances (epsilon 1e-9, feastol 1e-6, gaptol 1e-4) and default penalty parameters. -/
def baseSdpi : Sdpi where
  nvars := 0
  obj := []
  lb := []
  ub := []
  isintegral := []
  sdpblocks := []
  nlpcons := 0
  lplhs := []
  lprhs := []
  lpnnonz := 0
  lpbeg := []
  lpind := []
  lpval := []
  solved := false
  infeasible := false
  allfixed := false
  penalty := false
  epsilon := 1 / 1000000000
  gaptol := 1 / 10000
  feastol := 1 / 1000000
  penaltyparam := 100000
  maxpenaltyparam := 10000000000
  npenaltyincr := 8
  peninfeasadjust := 10
  sdpilb := []
  sdpiub := []
  sdpilbrowidx := []
  sdpiubrowidx := []
  sdpid := 1
  ninfeasible := 0
  nallfixed := 0
  nonevarsdp := 0
  nsdpcalls := 0
  niterations := 0
  solvedonevarsdp := .unsolved
  onevarsdpobjval := scipInvalid
  onevarsdpoptval := scipInvalid
  onevarsdpidx := -1
  bestbound := - sdpiInfinity

/-- A solved state with all result flags raised, used to observe which flags the
mutators reset. -/
def exFlagsSet : Sdpi :=
  { baseSdpi with
    nvars := 1
    obj := [0]
    lb := [0]
    ub := [1]
    sdpilb := [0]
    sdpiub := [1]
    solved := true
    infeasible := true
    allfixed := true
    penalty := true }

lemma delLPRows_penalty_eq (sdpi : Sdpi) (f l : ℕ) :
    (SCIPsdpiDelLPRows sdpi f l).penalty = sdpi.penalty := by
  unfold SCIPsdpiDelLPRows
  split <;> rfl

lemma delRowsetStep_penalty_eq (acc : Sdpi × List ℤ × ℕ) (i : ℕ) :
    (delRowsetStep acc i).1.penalty = acc.1.penalty := by
  unfold delRowsetStep
  split
  · exact delLPRows_penalty_eq _ _ _
  · rfl

lemma delRowset_foldl_penalty_eq (L : List ℕ) (acc : Sdpi × List ℤ × ℕ) :
    (L.foldl delRowsetStep acc).1.penalty = acc.1.penalty := by
  induction L generalizing acc with
  | nil => rfl
  | cons i L ih => rw [List.foldl_cons, ih, delRowsetStep_penalty_eq]

/-- C1, counterexample: on a state with all four result flags raised,
`SCIPsdpiChgObj` leaves `infeasible`, `allfixed` and `penalty` untouched, so the
claimed postcondition `infeasible = false ∧ allfixed = false ∧ penalty = false` fails
for this accepted argument combination. -/
theorem C1_cex_chgObj_leaves_flags :
    (SCIPsdpiChgObj exFlagsSet 1 [0] [5]).infeasible = true ∧
    (SCIPsdpiChgObj exFlagsSet 1 [0] [5]).allfixed = true ∧
    (SCIPsdpiChgObj exFlagsSet 1 [0] [5]).penalty = true := by
  refine ⟨rfl, rfl, rfl⟩

/-- C1, amended: every mutator resets `solved`; `infeasible` and `allfixed` are
additionally reset by `SCIPsdpiDelLPRows`, `SCIPsdpiDelLPRowset`, `SCIPsdpiChgBounds`
and `SCIPsdpiChgLPLhRhSides`; `SCIPsdpiAddLPRows` with a positive number of rows resets
`infeasible` but not `allfixed`; `SCIPsdpiChgObj` resets only `solved`; no mutator
resets `penalty`; and `SCIPsdpiAddLPRows` with `nrows = 0` leaves the whole state
unchanged. -/
theorem C1_mutators_flag_effects (sdpi : Sdpi) (nrows nvars nnonz frow lrow : ℕ)
    (ind beg : List ℕ) (a b c : List ℚ) (dstat : List ℤ) :
    SCIPsdpiAddLPRows sdpi 0 a b nnonz beg ind c = sdpi ∧
    ((SCIPsdpiAddLPRows sdpi (nrows + 1) a b nnonz beg ind c).solved = false ∧
     (SCIPsdpiAddLPRows sdpi (nrows + 1) a b nnonz beg ind c).infeasible = false ∧
     (SCIPsdpiAddLPRows sdpi (nrows + 1) a b nnonz beg ind c).allfixed = sdpi.allfixed ∧
     (SCIPsdpiAddLPRows sdpi (nrows + 1) a b nnonz beg ind c).penalty = sdpi.penalty) ∧
    ((SCIPsdpiDelLPRows sdpi frow lrow).solved = false ∧
     (SCIPsdpiDelLPRows sdpi frow lrow).infeasible = false ∧
     (SCIPsdpiDelLPRows sdpi frow lrow).allfixed = false ∧
     (SCIPsdpiDelLPRows sdpi frow lrow).penalty = sdpi.penalty) ∧
    ((SCIPsdpiDelLPRowset sdpi dstat).1.solved = false ∧
     (SCIPsdpiDelLPRowset sdpi dstat).1.infeasible = false ∧
     (SCIPsdpiDelLPRowset sdpi dstat).1.allfixed = false ∧
     (SCIPsdpiDelLPRowset sdpi dstat).1.penalty = sdpi.penalty) ∧
    ((SCIPsdpiChgObj sdpi nvars ind a).solved = false ∧
     (SCIPsdpiChgObj sdpi nvars ind a).infeasible = sdpi.infeasible ∧
     (SCIPsdpiChgObj sdpi nvars ind a).allfixed = sdpi.allfixed ∧
     (SCIPsdpiChgObj sdpi nvars ind a).penalty = sdpi.penalty) ∧
    ((SCIPsdpiChgBounds sdpi nvars ind a b).solved = false ∧
     (SCIPsdpiChgBounds sdpi nvars ind a b).infeasible = false ∧
     (SCIPsdpiChgBounds sdpi nvars ind a b).allfixed = false ∧
     (SCIPsdpiChgBounds sdpi nvars ind a b).penalty = sdpi.penalty) ∧
    ((SCIPsdpiChgLPLhRhSides sdpi nrows ind a b).solved = false ∧
     (SCIPsdpiChgLPLhRhSides sdpi nrows ind a b).infeasible = false ∧
     (SCIPsdpiChgLPLhRhSides sdpi nrows ind a b).allfixed = false ∧
     (SCIPsdpiChgLPLhRhSides sdpi nrows ind a b).penalty = sdpi.penalty) := by
  refine ⟨rfl, ?_, ?_, ?_, ⟨rfl, rfl, rfl, rfl⟩, ⟨rfl, rfl, rfl, rfl⟩, ⟨rfl, rfl, rfl, rfl⟩⟩
  · constructor
    · unfold SCIPsdpiAddLPRows
      simp only [Nat.succ_ne_zero, if_false]
      split <;> rfl
    constructor
    · unfold SCIPsdpiAddLPRows
      simp only [Nat.succ_ne_zero, if_false]
      split <;> rfl
    constructor
    · unfold SCIPsdpiAddLPRows
      simp only [Nat.succ_ne_zero, if_false]
      split <;> rfl
    · unfold SCIPsdpiAddLPRows
      simp only [Nat.succ_ne_zero, if_false]
      split <;> rfl
  · refine ⟨?_, ?_, ?_, delLPRows_penalty_eq sdpi frow lrow⟩ <;>
      (unfold SCIPsdpiDelLPRows; split <;> rfl)
  · refine ⟨rfl, rfl, rfl, ?_⟩
    show (List.foldl delRowsetStep (sdpi, dstat, 0) (List.range sdpi.nlpcons)).1.penalty
      = sdpi.penalty
    exact delRowset_foldl_penalty_eq _ _

/-- Concrete LP data for the `SCIPsdpiDelLPRows` bug: two variables, two rows; row 0 is
`10 ≤ x0 + 2 x1 ≤ 20` (2 nonzeros), row 1 is `30 ≤ 3 x0 ≤ 40` (1 nonzero). -/
def exC10 : Sdpi :=
  { baseSdpi with
    nvars := 2
    obj := [0, 0]
    lb := [0, 0]
    ub := [1, 1]
    nlpcons := 2
    lplhs := [10, 30]
    lprhs := [20, 40]
    lpnnonz := 3
    lpbeg := [0, 2]
    lpind := [0, 1, 0]
    lpval := [1, 2, 3] }

/-- C10: deleting row 0 of `exC10` should leave exactly row 1 with its side values, one
nonzero `(col 0, value 3)` starting at position 0, and `lpnnonz = 1`.  Instead the code
keeps `lpnnonz = 2` (`deletednonz` is computed from the already overwritten
`lpbeg[firstrow]` plus a spurious `+ 1`), never shifts `lpval` (the surviving values
are those of the deleted row), and leaves `lpbeg = [2]`, which violates the invariant
`lpbeg[i] < lpnnonz` asserted by `prepareLPData`. -/
theorem C10_delLPRows_mangles_data :
    (SCIPsdpiDelLPRows exC10 0 0).nlpcons = 1 ∧
    (SCIPsdpiDelLPRows exC10 0 0).lplhs = [30] ∧
    (SCIPsdpiDelLPRows exC10 0 0).lprhs = [40] ∧
    (SCIPsdpiDelLPRows exC10 0 0).lpnnonz = 2 ∧
    (SCIPsdpiDelLPRows exC10 0 0).lpbeg = [2] ∧
    (SCIPsdpiDelLPRows exC10 0 0).lpind = [0, 0] ∧
    (SCIPsdpiDelLPRows exC10 0 0).lpval = [1, 2] ∧
    ¬ ((SCIPsdpiDelLPRows exC10 0 0).lpnnonz = 1 ∧
       (SCIPsdpiDelLPRows exC10 0 0).lpbeg = [0] ∧
       (SCIPsdpiDelLPRows exC10 0 0).lpind = [0] ∧
       (SCIPsdpiDelLPRows exC10 0 0).lpval = [3]) := by
  decide

/-- An unsolved state (`solved = false`) with nonempty data. -/
def exUnsolved : Sdpi :=
  { baseSdpi with
    nvars := 1
    obj := [1]
    lb := [0]
    ub := [1]
    sdpilb := [0]
    sdpiub := [1]
    penalty := true }

/-- C8, counterexample: querying the objective value on an unsolved state is not an
unchecked contract violation; the call returns normally with the error code
`SCIP_LPERROR` and the output argument untouched. -/
theorem C8_cex_getObjval_unsolved_is_checked :
    SCIPsdpiGetObjval exUnsolved 42 7 ≠ QueryOutcome.abort ∧
    SCIPsdpiGetObjval exUnsolved 42 7 = QueryOutcome.ret RetCode.lperror 42 := by
  decide

/-- C8, amended: on every state with `solved = false`, the solution queries
`SCIPsdpiGetObjval` and `SCIPsdpiGetDualSol` return the checked error code
`SCIP_LPERROR` (after printing an error message), leaving the state and the output
arguments unchanged; they produce solution information only when `solved = true`. -/
theorem C8_queries_unsolved_return_lperror (sdpi : Sdpi) (q sv : ℚ) (ds sd : List ℚ)
    (h : sdpi.solved = false) :
    SCIPsdpiGetObjval sdpi q sv = QueryOutcome.ret RetCode.lperror q ∧
    SCIPsdpiGetDualSol sdpi q ds sv sd = QueryOutcome.ret RetCode.lperror (q, ds) := by
  constructor
  · unfold SCIPsdpiGetObjval
    rw [h]
    simp
  · unfold SCIPsdpiGetDualSol
    rw [h]
    simp

/-- C8, witness for the amended theorem at a concrete unsolved state. -/
theorem C8_queries_unsolved_return_lperror_witness :
    SCIPsdpiGetObjval exUnsolved 42 7 = QueryOutcome.ret RetCode.lperror 42 ∧
    SCIPsdpiGetDualSol exUnsolved 42 [5] 7 [9] = QueryOutcome.ret RetCode.lperror (42, [5]) :=
  C8_queries_unsolved_return_lperror exUnsolved 42 7 [5] [9] rfl

/-
Constant-matrix folding (sdpi.c lines 614–682 together with SdpVarfixer).
-/

/-- Value of a sparse entry list at position (r, c): the sum of all stored values at
that position (the dense reading of the lower-triangular sparse data). -/
def entVal (l : List Ent) (r c : ℕ) : ℚ :=
  (l.map (fun e => if e.1 = r ∧ e.2.1 = c then e.2.2 else 0)).sum

lemma entVal_nil (r c : ℕ) : entVal [] r c = 0 := rfl

lemma entVal_cons (e : Ent) (l : List Ent) (r c : ℕ) :
    entVal (e :: l) r c = (if e.1 = r ∧ e.2.1 = c then e.2.2 else 0) + entVal l r c := by
  simp [entVal]

lemma entVal_append (l₁ l₂ : List Ent) (r c : ℕ) :
    entVal (l₁ ++ l₂) r c = entVal l₁ r c + entVal l₂ r c := by
  simp [entVal]

/-- Modelled from the spec: `SCIPsdpVarfixerMergeArraysIntoNew` (its implementation
file SdpVarfixer.c is not among the sources; only the declaration in SdpVarfixer.h
is).  Per the spec, the sparse merge combines entries of the two input lists that sit
at the same (row, col) position by adding their values, and entries that cancel to
zero are dropped. -/
def SCIPsdpVarfixerMergeArraysIntoNew (first second : List Ent) : List Ent :=
  let all := first ++ second
  ((all.map (fun e => (e.1, e.2.1))).dedup).filterMap (fun p =>
    if entVal all p.1 p.2 = 0 then none else some (p.1, p.2, entVal all p.1 p.2))

lemma entVal_eq_zero_of_not_mem_pos (l : List Ent) (r c : ℕ)
    (h : (r, c) ∉ l.map (fun e => (e.1, e.2.1))) : entVal l r c = 0 := by
  induction l with
  | nil => rfl
  | cons e l ih =>
    rw [List.map_cons, List.mem_cons, not_or] at h
    rw [entVal_cons, ih h.2, add_zero, if_neg]
    intro hrc
    exact h.1 (by rw [Prod.mk.injEq]; exact ⟨hrc.1.symm, hrc.2.symm⟩)

lemma entVal_filterMap_nodup (all : List Ent) (P : List (ℕ × ℕ)) (hP : P.Nodup)
    (r c : ℕ) :
    entVal (P.filterMap (fun p =>
        if entVal all p.1 p.2 = 0 then none else some (p.1, p.2, entVal all p.1 p.2))) r c
      = if (r, c) ∈ P then entVal all r c else 0 := by
  induction P with
  | nil => simp [entVal]
  | cons p P ih =>
    rcases List.nodup_cons.mp hP with ⟨hp, hP'⟩
    specialize ih hP'
    rcases p with ⟨pr, pc⟩
    by_cases hmem : (r, c) = (pr, pc)
    · rw [Prod.mk.injEq] at hmem
      obtain ⟨hr, hc⟩ := hmem
      subst hr
      subst hc
      by_cases hz : entVal all r c = 0
      · rw [List.filterMap_cons_none (by simpa using hz), ih, if_neg hp,
          if_pos (List.mem_cons_self _ _), hz]
      · have hstep : List.filterMap (fun p : ℕ × ℕ =>
            if entVal all p.1 p.2 = 0 then none else some (p.1, p.2, entVal all p.1 p.2))
              ((r, c) :: P)
            = (r, c, entVal all r c) :: List.filterMap (fun p : ℕ × ℕ =>
            if entVal all p.1 p.2 = 0 then none else some (p.1, p.2, entVal all p.1 p.2)) P :=
          List.filterMap_cons_some (by simp [hz])
        rw [hstep, entVal_cons, ih, if_neg hp, if_pos (List.mem_cons_self _ _)]
        simp
    · have hne : ¬ (pr = r ∧ pc = c) := by
        intro hc'
        exact hmem (by rw [hc'.1, hc'.2])
      have hmemiff : ((r, c) ∈ (pr, pc) :: P) ↔ ((r, c) ∈ P) := by
        rw [List.mem_cons]
        exact or_iff_right hmem
      by_cases hz : entVal all pr pc = 0
      · rw [List.filterMap_cons_none (by simpa using hz), ih, if_congr hmemiff rfl rfl]
      · have hstep : List.filterMap (fun p : ℕ × ℕ =>
            if entVal all p.1 p.2 = 0 then none else some (p.1, p.2, entVal all p.1 p.2))
              ((pr, pc) :: P)
            = (pr, pc, entVal all pr pc) :: List.filterMap (fun p : ℕ × ℕ =>
            if entVal all p.1 p.2 = 0 then none else some (p.1, p.2, entVal all p.1 p.2)) P :=
          List.filterMap_cons_some (by simp [hz])
        rw [hstep, entVal_cons, ih, if_congr hmemiff rfl rfl]
        simp [hne]

/-- The merge is exact on the dense reading: the merged list evaluates to the sum of
the two inputs at every position. -/
lemma entVal_merge (first second : List Ent) (r c : ℕ) :
    entVal (SCIPsdpVarfixerMergeArraysIntoNew first second) r c
      = entVal first r c + entVal second r c := by
  unfold SCIPsdpVarfixerMergeArraysIntoNew
  rw [entVal_filterMap_nodup _ _ (List.nodup_dedup _)]
  by_cases h : (r, c) ∈ ((first ++ second).map (fun e => (e.1, e.2.1))).dedup
  · rw [if_pos h, entVal_append]
  · rw [if_neg h]
    have h0 : entVal (first ++ second) r c = 0 :=
      entVal_eq_zero_of_not_mem_pos _ _ _ (fun hc => h (List.mem_dedup.mpr hc))
    rw [entVal_append] at h0
    exact h0.symm

/-- The nonzeros contributed to the constant matrix by the fixed variables of one
block (sdpi.c lines 649–667): for every block variable that is fixed to a value of
magnitude more than epsilon, the entries `(r, c, -value * fixedvalue)`. -/
def fixedContributions (epsilon : ℚ) (sdpilb sdpiub : List ℚ) (blk : SdpBlock) : List Ent :=
  blk.blockvars.foldr (fun bv acc =>
    if isFixedB epsilon sdpilb sdpiub bv.1 ∧ epsilon < |sdpilb.getD bv.1 0| then
      bv.2.map (fun e => (e.1, e.2.1, - e.2.2 * sdpilb.getD bv.1 0)) ++ acc
    else acc) []

lemma entVal_scale (l : List Ent) (v : ℚ) (r c : ℕ) :
    entVal (l.map (fun e => (e.1, e.2.1, - e.2.2 * v))) r c = - (entVal l r c * v) := by
  induction l with
  | nil => simp [entVal]
  | cons e l ih =>
    rw [List.map_cons, entVal_cons, entVal_cons, ih]
    by_cases h : e.1 = r ∧ e.2.1 = c
    · rw [if_pos h, if_pos h]
      ring
    · rw [if_neg h, if_neg h]
      ring

lemma entVal_fixedContributions (epsilon : ℚ) (sdpilb sdpiub : List ℚ) (blk : SdpBlock)
    (r c : ℕ) :
    entVal (fixedContributions epsilon sdpilb sdpiub blk) r c
      = - (blk.blockvars.map (fun bv =>
          if isFixedB epsilon sdpilb sdpiub bv.1 ∧ epsilon < |sdpilb.getD bv.1 0| then
            sdpilb.getD bv.1 0 * entVal bv.2 r c
          else 0)).sum := by
  unfold fixedContributions
  induction blk.blockvars with
  | nil => simp [entVal]
  | cons bv l ih =>
    rw [List.foldr_cons, List.map_cons, List.sum_cons]
    by_cases h : isFixedB epsilon sdpilb sdpiub bv.1 ∧ epsilon < |sdpilb.getD bv.1 0|
    · rw [if_pos h, if_pos h, entVal_append, entVal_scale, ih]
      ring
    · rw [if_neg h, if_neg h, ih, zero_add]

/-- `compConstMatAfterFixings` (sdpi.c lines 614–682): per block, merge the nonzeros
of the fixed variables (scaled by minus their fixed value) into the block's constant
matrix. -/
def compConstMatAfterFixings (sdpi : Sdpi) (sdpilb sdpiub : List ℚ) : List (List Ent) :=
  sdpi.sdpblocks.map (fun blk =>
    SCIPsdpVarfixerMergeArraysIntoNew blk.constEnt
      (fixedContributions sdpi.epsilon sdpilb sdpiub blk))

/-- C5: on the dense reading, the constant matrix computed by the folding step equals
the original constant matrix minus the sum, over the block's variables that are fixed
to a value of magnitude more than epsilon, of (fixed value times the variable's
coefficient matrix); variables fixed to a value of magnitude at most epsilon
contribute nothing.  The sparse merge adds entries at the same (row, col) position
and drops entries whose sum cancels to zero. -/
theorem C5_compConstMat_folding (sdpi : Sdpi) (sdpilb sdpiub : List ℚ) (b : ℕ)
    (hb : b < sdpi.sdpblocks.length) (r c : ℕ) :
    entVal ((compConstMatAfterFixings sdpi sdpilb sdpiub).getD b []) r c
      = entVal (sdpi.sdpblocks.get ⟨b, hb⟩).constEnt r c
        - ((sdpi.sdpblocks.get ⟨b, hb⟩).blockvars.map (fun bv =>
            if isFixedB sdpi.epsilon sdpilb sdpiub bv.1 ∧
                sdpi.epsilon < |sdpilb.getD bv.1 0| then
              sdpilb.getD bv.1 0 * entVal bv.2 r c
            else 0)).sum := by
  have hget : (compConstMatAfterFixings sdpi sdpilb sdpiub).getD b []
      = SCIPsdpVarfixerMergeArraysIntoNew (sdpi.sdpblocks.get ⟨b, hb⟩).constEnt
          (fixedContributions sdpi.epsilon sdpilb sdpiub (sdpi.sdpblocks.get ⟨b, hb⟩)) := by
    unfold compConstMatAfterFixings
    rw [List.getD_eq_getElem _ _ (by simpa using hb)]
    simp
  rw [hget, entVal_merge, entVal_fixedContributions]
  ring

/-- The spec's folding scenario: a single 1×1 block with constant matrix entry -1 and
one variable with matrix entry 2, the variable fixed to 1. -/
def exC5 : Sdpi :=
  { baseSdpi with
    nvars := 1
    obj := [1]
    lb := [1]
    ub := [1]
    sdpblocks := [⟨1, [(0, [(0, 0, 2)])], [(0, 0, -1)]⟩] }

/-- C5, witness: the folding theorem applied to the concrete scenario (the folded
constant entry is -1 - 2·1 = -3). -/
theorem C5_compConstMat_folding_witness :
    entVal ((compConstMatAfterFixings exC5 [1] [1]).getD 0 []) 0 0
      = entVal (exC5.sdpblocks.get ⟨0, by decide⟩).constEnt 0 0
        - ((exC5.sdpblocks.get ⟨0, by decide⟩).blockvars.map (fun bv =>
            if isFixedB exC5.epsilon [1] [1] bv.1 ∧
                exC5.epsilon < |List.getD [1] bv.1 0| then
              List.getD [1] bv.1 0 * entVal bv.2 0 0
            else 0)).sum :=
  C5_compConstMat_folding exC5 [1] [1] 0 (by decide) 0 0

/-
Row coefficient tightening (`tightenRowCoefs`, sdpi.c lines 830–1117).  The
extended-precision (QUAD) arithmetic of the source is exact rational arithmetic here.
-/

/-- Activity data computed by the first loop of `tightenRowCoefs`
(sdpi.c lines 876–921). -/
structure ActState where
  minact : ℚ
  maxact : ℚ
  minactinf : Bool
  maxactinf : Bool
  maxintabsval : ℚ
  hasintvar : Bool
  deriving DecidableEq

/-- Mutable state of the tightening loop of `tightenRowCoefs`
(sdpi.c lines 962–1114): the (whole) value and index arrays, the number of nonzeros of
the current row, the row sides, the running activities and the change counter. -/
structure TightenState where
  vals : List ℚ
  inds : List ℕ
  n : ℕ
  lhs : ℚ
  rhs : ℚ
  minact : ℚ
  maxact : ℚ
  nchg : ℕ
  deriving DecidableEq

/-- The tightening loop of `tightenRowCoefs` (sdpi.c lines 963–1114).  `o` is the
offset of the row inside the shared arrays and `i` the loop index; each step either
advances `i` or removes a coefficient (shrinking `n`), so `n - i` decreases and the
fuel passed by `tightenRowCoefs` is never exhausted. -/
def tightenLoop (epsilon : ℚ) (isintegral : List Bool) (sdpilb sdpiub : List ℚ)
    (o : ℕ) : ℕ → ℕ → TightenState → TightenState
  | 0, _, st => st
  | fuel + 1, i, st =>
    if st.n ≤ i then st
    else
      let ind := st.inds.getD (o + i) 0
      let val := st.vals.getD (o + i) 0
      if ¬ (isintegral.getD ind false) then
        tightenLoop epsilon isintegral sdpilb sdpiub o fuel (i + 1) st
      else
        let lb := sdpilb.getD ind 0
        let ub := sdpiub.getD ind 0
        if val > 0 ∧ st.minact + val ≥ st.lhs - epsilon ∧ st.maxact - val ≤ st.rhs + epsilon then
          let newval := max (st.lhs - st.minact) (st.maxact - st.rhs)
          if |newval - val| > epsilon then
            let lhsdelta := (newval - val) * lb
            let rhsdelta := (newval - val) * ub
            let newlhs := if st.lhs > - sdpiInfinity then st.lhs + lhsdelta else st.lhs
            let newrhs := if st.rhs < sdpiInfinity then st.rhs + rhsdelta else st.rhs
            let st' := { st with lhs := newlhs, rhs := newrhs, nchg := st.nchg + 1 }
            if newval > epsilon then
              let st'' := { st' with
                minact := if st'.lhs > - sdpiInfinity then st'.minact + lhsdelta else st'.minact
                maxact := if st'.rhs < sdpiInfinity then st'.maxact + rhsdelta else st'.maxact
                vals := st'.vals.set (o + i) newval }
              tightenLoop epsilon isintegral sdpilb sdpiub o fuel (i + 1) st''
            else
              let st'' := { st' with
                n := st'.n - 1
                vals := st'.vals.set (o + i) (st'.vals.getD (o + (st'.n - 1)) 0)
                inds := st'.inds.set (o + i) (st'.inds.getD (o + (st'.n - 1)) 0) }
              tightenLoop epsilon isintegral sdpilb sdpiub o fuel i st''
          else tightenLoop epsilon isintegral sdpilb sdpiub o fuel (i + 1) st
        else if val < 0 ∧ st.minact - val ≥ st.lhs - epsilon ∧
            st.maxact + val ≤ st.rhs + epsilon then
          let newval := min (st.minact - st.lhs) (st.rhs - st.maxact)
          if |newval - val| > epsilon then
            let lhsdelta := (newval - val) * ub
            let rhsdelta := (newval - val) * lb
            let newlhs := if st.lhs > - sdpiInfinity then st.lhs + lhsdelta else st.lhs
            let newrhs := if st.rhs < sdpiInfinity then st.rhs + rhsdelta else st.rhs
            let st' := { st with lhs := newlhs, rhs := newrhs, nchg := st.nchg + 1 }
            if newval < - epsilon then
              let st'' := { st' with
                minact := if st'.lhs > - sdpiInfinity then st'.minact + lhsdelta else st'.minact
                maxact := if st'.rhs < sdpiInfinity then st'.maxact + rhsdelta else st'.maxact
                vals := st'.vals.set (o + i) newval }
              tightenLoop epsilon isintegral sdpilb sdpiub o fuel (i + 1) st''
            else
              let st'' := { st' with
                n := st'.n - 1
                vals := st'.vals.set (o + i) (st'.vals.getD (o + (st'.n - 1)) 0)
                inds := st'.inds.set (o + i) (st'.inds.getD (o + (st'.n - 1)) 0) }
              tightenLoop epsilon isintegral sdpilb sdpiub o fuel i st''
          else tightenLoop epsilon isintegral sdpilb sdpiub o fuel (i + 1) st
        else tightenLoop epsilon isintegral sdpilb sdpiub o fuel (i + 1) st

/-- Result of `tightenRowCoefs`: the loop state plus the two redundancy flags. -/
structure TightenResult extends TightenState where
  lhsredundant : Bool
  rhsredundant : Bool
  deriving DecidableEq

/-- `tightenRowCoefs` (sdpi.c lines 830–1117) on the row of length `n` stored at
offset `o` of the shared arrays `vals`/`inds`. -/
def tightenRowCoefs (epsilon : ℚ) (isintegral : List Bool) (sdpilb sdpiub : List ℚ)
    (vals : List ℚ) (inds : List ℕ) (o n : ℕ) (lhs rhs : ℚ) : TightenResult :=
  let keep : TightenState := ⟨vals, inds, n, lhs, rhs, 0, 0, 0⟩
  -- do nothing for equations
  if |lhs - rhs| < epsilon then { keep with lhsredundant := false, rhsredundant := false }
  else
    -- compute activities
    let act := (List.range n).foldl (fun (a : ActState) i =>
      let ind := inds.getD (o + i) 0
      let val := vals.getD (o + i) 0
      let lb := sdpilb.getD ind 0
      let ub := sdpiub.getD ind 0
      let a := if isintegral.getD ind false then
          { a with maxintabsval := max a.maxintabsval |val|, hasintvar := true }
        else a
      if val > 0 then
        let a := if ub < sdpiInfinity then { a with maxact := a.maxact + val * ub }
          else { a with maxactinf := true }
        if lb > - sdpiInfinity then { a with minact := a.minact + val * lb }
        else { a with minactinf := true }
      else
        let a := if lb > - sdpiInfinity then { a with maxact := a.maxact + val * lb }
          else { a with maxactinf := true }
        if ub < sdpiInfinity then { a with minact := a.minact + val * ub }
        else { a with minactinf := true }) ⟨0, 0, false, false, 0, false⟩
    -- without an integer variable no tightening is possible (note: this exits before
    -- the redundancy flags are computed)
    if ¬ act.hasintvar then { keep with lhsredundant := false, rhsredundant := false }
    else if act.minactinf ∧ act.maxactinf then
      { keep with lhsredundant := false, rhsredundant := false }
    else
      let minact := if act.minactinf then - sdpiInfinity else act.minact
      let maxact := if act.maxactinf then sdpiInfinity else act.maxact
      let lhsred : Bool := decide (lhs ≤ - sdpiInfinity) || decide (minact ≥ lhs - epsilon)
      let rhsred : Bool := decide (rhs ≥ sdpiInfinity) || decide (maxact ≤ rhs + epsilon)
      if lhsred ∧ rhsred then { keep with lhsredundant := lhsred, rhsredundant := rhsred }
      else if minact + act.maxintabsval < lhs - epsilon ∨
          maxact - act.maxintabsval > rhs + epsilon then
        { keep with lhsredundant := lhsred, rhsredundant := rhsred }
      else
        let st := tightenLoop epsilon isintegral sdpilb sdpiub o (n + 1) 0
          ⟨vals, inds, n, lhs, rhs, minact, maxact, 0⟩
        { st with lhsredundant := lhsred, rhsredundant := rhsred }

/-
LP preprocessing (`prepareLPData`, sdpi.c lines 1129–1366).
-/

/-- Result of the singleton-row conversion (sdpi.c lines 1265–1348). -/
structure SingletonResult where
  sdpilb : List ℚ
  sdpiub : List ℚ
  sdpilbrowidx : List ℤ
  sdpiubrowidx : List ℤ
  fixingsfound : Bool
  infeasible : Bool
  deriving DecidableEq

/-- Conversion of an LP row with exactly one free variable into bounds
(sdpi.c lines 1265–1348).  `lpcol`/`lpval` are the column and coefficient of the
single free variable (read from the original row data), `i` the row index and
`lhs`/`rhs` the sides after substituting the fixed variables.  Note that the
infeasibility test compares against epsilon, not feastol. -/
def convertSingletonRow (epsilon : ℚ) (lpcol : ℕ) (lpval : ℚ) (i : ℕ) (lhs rhs : ℚ)
    (sdpilb sdpiub : List ℚ) (lbrowidx ubrowidx : List ℤ) (fixingsfound : Bool) :
    SingletonResult :=
  -- compute new lower and upper bounds
  let lb := if lpval > 0 then
      (if lhs > - sdpiInfinity then lhs / lpval else - sdpiInfinity)
    else
      (if rhs < sdpiInfinity then rhs / lpval else - sdpiInfinity)
  let ub := if lpval > 0 then
      (if rhs < sdpiInfinity then rhs / lpval else sdpiInfinity)
    else
      (if lhs > - sdpiInfinity then lhs / lpval else sdpiInfinity)
  -- check whether lower bound is stronger
  let lbStronger : Bool := decide (lb > sdpilb.getD lpcol 0 + epsilon)
  let sdpilb' := if lbStronger then sdpilb.set lpcol lb else sdpilb
  let lbrowidx' := if lbStronger then
      (if lpval < 0 then lbrowidx.set lpcol ((i : ℤ) + 1)
       else lbrowidx.set lpcol (- (i : ℤ) - 1))
    else lbrowidx
  -- check whether upper bound is stronger
  let ubStronger : Bool := decide (ub < sdpiub.getD lpcol 0 - epsilon)
  let sdpiub' := if ubStronger then sdpiub.set lpcol ub else sdpiub
  let ubrowidx' := if ubStronger then
      (if lpval > 0 then ubrowidx.set lpcol ((i : ℤ) + 1)
       else ubrowidx.set lpcol (- (i : ℤ) - 1))
    else ubrowidx
  -- check whether this makes the problem infeasible
  if sdpiub'.getD lpcol 0 < sdpilb'.getD lpcol 0 - epsilon then
    ⟨sdpilb', sdpiub', lbrowidx', ubrowidx', fixingsfound, true⟩
  else
    -- check if this leads to a fixing of this variable
    ⟨sdpilb', sdpiub', lbrowidx', ubrowidx',
      fixingsfound || decide (|sdpilb'.getD lpcol 0 - sdpiub'.getD lpcol 0| < epsilon),
      false⟩

/-- Output of `prepareLPData`: the updated working bounds and provenance arrays, the
number of active LP constraints, the per-row index-change map, the residual sides,
the compacted nonzero data, and the fixing/infeasibility flags. -/
structure PrepResult where
  sdpilb : List ℚ
  sdpiub : List ℚ
  sdpilbrowidx : List ℤ
  sdpiubrowidx : List ℤ
  nsdpilpcons : ℕ
  sdpilpindchanges : List ℤ
  sdpilplhs : List ℚ
  sdpilprhs : List ℚ
  sdpilpnnonz : ℕ
  sdpilpbeg : List ℕ
  sdpilpind : List ℕ
  sdpilpval : List ℚ
  fixingsfound : Bool
  infeasible : Bool
  deriving DecidableEq

/-- State of the scan over one row's nonzeros (sdpi.c lines 1180–1223). -/
structure ScanState where
  rowconst : ℚ
  nrownonz : ℕ
  nlpnonz : ℕ
  nonzind : ℤ
  ind : List ℕ
  val : List ℚ
  deriving DecidableEq

/-- `prepareLPData` (sdpi.c lines 1129–1366) on the current problem and the given
working bounds.  The scratch output arrays are modelled as zero-initialised; every
position the code reads was written earlier in the same call.  Faithfully kept is the
call of `tightenRowCoefs` with the row slice at offset `nsdpilpcons` (the number of
kept rows) although the row was copied to offset `sdpilpnnonz` (the number of kept
nonzeros). -/
def prepareLPData (sdpi : Sdpi) (sdpilb sdpiub : List ℚ) : PrepResult :=
  let init : PrepResult :=
    ⟨sdpilb, sdpiub, List.replicate sdpi.nvars 0, List.replicate sdpi.nvars 0,
      0, List.replicate sdpi.nlpcons 0, List.replicate sdpi.nlpcons 0,
      List.replicate sdpi.nlpcons 0, 0, List.replicate sdpi.nlpcons 0,
      List.replicate sdpi.lpnnonz 0, List.replicate sdpi.lpnnonz 0, false, false⟩
  -- if there is no LP-part, there is nothing to do (the provenance arrays are not
  -- initialised in this case)
  if sdpi.nlpcons = 0 ∨ sdpi.lpnnonz = 0 then
    { init with sdpilbrowidx := List.replicate sdpi.nvars 0,
                sdpiubrowidx := List.replicate sdpi.nvars 0 }
  else
    (List.range sdpi.nlpcons).foldl (fun (acc : PrepResult) i =>
      if acc.infeasible then acc
      else
        let begi := sdpi.lpbeg.getD i 0
        let nextbeg := if i = sdpi.nlpcons - 1 then sdpi.lpnnonz else sdpi.lpbeg.getD (i + 1) 0
        -- init constraint to be removed, initialise lhs/rhs for debugging, record beg
        let acc := { acc with
          sdpilpindchanges := acc.sdpilpindchanges.set i (-1)
          sdpilplhs := acc.sdpilplhs.set i scipInvalid
          sdpilprhs := acc.sdpilprhs.set i scipInvalid
          sdpilpbeg := acc.sdpilpbeg.set i acc.sdpilpnnonz }
        -- scan the row: copy active entries, accumulate the fixed contribution
        let sc := (List.range' begi (nextbeg - begi)).foldl (fun (sc : ScanState) j =>
          let col := sdpi.lpind.getD j 0
          if ¬ isFixedB sdpi.epsilon acc.sdpilb acc.sdpiub col then
            { sc with
              ind := sc.ind.set sc.nlpnonz col
              val := sc.val.set sc.nlpnonz (sdpi.lpval.getD j 0)
              nlpnonz := sc.nlpnonz + 1
              nrownonz := sc.nrownonz + 1
              nonzind := (j : ℤ) }
          else
            { sc with rowconst := sc.rowconst + sdpi.lpval.getD j 0 * acc.sdpilb.getD col 0 })
          ⟨0, 0, acc.sdpilpnnonz, -1, acc.sdpilpind, acc.sdpilpval⟩
        let lhs := if sdpi.lplhs.getD i 0 > - sdpiInfinity then sdpi.lplhs.getD i 0 - sc.rowconst
          else - sdpiInfinity
        let rhs := if sdpi.lprhs.getD i 0 < sdpiInfinity then sdpi.lprhs.getD i 0 - sc.rowconst
          else sdpiInfinity
        if sc.nrownonz ≥ 2 then
          let t := tightenRowCoefs sdpi.epsilon sdpi.isintegral acc.sdpilb acc.sdpiub
            sc.val sc.ind acc.nsdpilpcons sc.nrownonz lhs rhs
          if ¬ t.lhsredundant ∨ ¬ t.rhsredundant then
            { acc with
              sdpilpindchanges := acc.sdpilpindchanges.set i ((i : ℤ) - acc.nsdpilpcons)
              sdpilplhs := acc.sdpilplhs.set i t.lhs
              sdpilprhs := acc.sdpilprhs.set i t.rhs
              sdpilpind := t.inds
              sdpilpval := t.vals
              sdpilpnnonz := acc.sdpilpnnonz + t.n
              nsdpilpcons := acc.nsdpilpcons + 1 }
          else
            -- redundant: the row is dropped, but the scratch arrays keep the writes
            { acc with sdpilpind := t.inds, sdpilpval := t.vals }
        else if sc.nrownonz = 1 then
          let nz := sc.nonzind.toNat
          let sr := convertSingletonRow sdpi.epsilon (sdpi.lpind.getD nz 0)
            (sdpi.lpval.getD nz 0) i lhs rhs acc.sdpilb acc.sdpiub
            acc.sdpilbrowidx acc.sdpiubrowidx acc.fixingsfound
          { acc with
            sdpilb := sr.sdpilb
            sdpiub := sr.sdpiub
            sdpilbrowidx := sr.sdpilbrowidx
            sdpiubrowidx := sr.sdpiubrowidx
            fixingsfound := sr.fixingsfound
            infeasible := sr.infeasible
            sdpilpind := sc.ind
            sdpilpval := sc.val }
        else
          -- rows with no entries: the constraint degenerates to lhs ≤ 0 ≤ rhs
          if lhs > sdpi.feastol ∨ rhs < - sdpi.feastol then
            { acc with infeasible := true, sdpilpind := sc.ind, sdpilpval := sc.val }
          else
            { acc with sdpilpind := sc.ind, sdpilpval := sc.val }) init

/-- The claim's description of the singleton-row conversion, written from the spec's
words: with coefficient `a` and residual sides `lhs`/`rhs`, the candidate lower/upper
bounds are `lhs/a` and `rhs/a` when `a > 0` and `rhs/a` and `lhs/a` when `a < 0`, an
infinite side producing no candidate; a candidate is recorded only if it tightens the
current bound by more than epsilon, together with the signed provenance `±(i+1)` of
the producing row and side (positive when the right-hand side produced the bound);
the instance is declared infeasible if the resulting upper bound falls below the
resulting lower bound by more than epsilon; and a fixing is reported if the resulting
bounds come within epsilon of each other. -/
def singletonRowSpec (epsilon : ℚ) (lpcol : ℕ) (a : ℚ) (i : ℕ) (lhs rhs : ℚ)
    (sdpilb sdpiub : List ℚ) (lbrowidx ubrowidx : List ℤ) (fixingsfound : Bool) :
    SingletonResult :=
  let curLb := sdpilb.getD lpcol 0
  let curUb := sdpiub.getD lpcol 0
  let candLb : Option ℚ :=
    if a > 0 then (if lhs > - sdpiInfinity then some (lhs / a) else none)
    else (if rhs < sdpiInfinity then some (rhs / a) else none)
  let candUb : Option ℚ :=
    if a > 0 then (if rhs < sdpiInfinity then some (rhs / a) else none)
    else (if lhs > - sdpiInfinity then some (lhs / a) else none)
  let lbProv : ℤ := if a > 0 then - (i : ℤ) - 1 else (i : ℤ) + 1
  let ubProv : ℤ := if a > 0 then (i : ℤ) + 1 else - (i : ℤ) - 1
  let lbRecord : Bool := match candLb with
    | none => false
    | some x => decide (x > curLb + epsilon)
  let newLb := match candLb with
    | none => curLb
    | some x => if x > curLb + epsilon then x else curLb
  let ubRecord : Bool := match candUb with
    | none => false
    | some x => decide (x < curUb - epsilon)
  let newUb := match candUb with
    | none => curUb
    | some x => if x < curUb - epsilon then x else curUb
  let sdpilb' := if lbRecord then sdpilb.set lpcol newLb else sdpilb
  let lbrowidx' := if lbRecord then lbrowidx.set lpcol lbProv else lbrowidx
  let sdpiub' := if ubRecord then sdpiub.set lpcol newUb else sdpiub
  let ubrowidx' := if ubRecord then ubrowidx.set lpcol ubProv else ubrowidx
  if newUb < newLb - epsilon then
    ⟨sdpilb', sdpiub', lbrowidx', ubrowidx', fixingsfound, true⟩
  else
    ⟨sdpilb', sdpiub', lbrowidx', ubrowidx',
      fixingsfound || decide (|newLb - newUb| < epsilon), false⟩

/-- The C6 counterexample instance: one variable with bounds [0, 1/20], epsilon 1/100,
feastol 1/10, and the single row `x0 ≥ 9/100`. -/
def exC6cex : Sdpi :=
  { baseSdpi with
    nvars := 1
    obj := [0]
    lb := [0]
    ub := [1 / 20]
    epsilon := 1 / 100
    feastol := 1 / 10
    nlpcons := 1
    lplhs := [9 / 100]
    lprhs := [sdpiInfinity]
    lpnnonz := 1
    lpbeg := [0]
    lpind := [0]
    lpval := [1] }

/-- The spec's singleton scenario: row `x0 + x1 ≥ 3` with `x1` fixed to 1. -/
def exC6ex : Sdpi :=
  { baseSdpi with
    nvars := 2
    obj := [0, 0]
    lb := [0, 1]
    ub := [10, 1]
    nlpcons := 1
    lplhs := [3]
    lprhs := [sdpiInfinity]
    lpnnonz := 2
    lpbeg := [0]
    lpind := [0, 1]
    lpval := [1, 1] }

unseal Rat.add Rat.mul Rat.sub Rat.inv in
/-- C6, counterexample: on `exC6cex` the pass tightens the lower bound of `x0` to
9/100 and declares the instance infeasible, although the tightened upper bound 1/20
does not fall below the lower bound by more than feastol = 1/10 (it does so only by
more than epsilon = 1/100, which is what the code compares against). -/
theorem C6_cex_infeasible_uses_epsilon_not_feastol :
    (prepareLPData exC6cex [0] [1 / 20]).infeasible = true ∧
    ¬ ((prepareLPData exC6cex [0] [1 / 20]).sdpiub.getD 0 0 <
        (prepareLPData exC6cex [0] [1 / 20]).sdpilb.getD 0 0 - exC6cex.feastol) := by
  decide

unseal Rat.add Rat.mul Rat.sub Rat.inv in
/-- C6, amended: the singleton-row step of the preprocessing pass behaves exactly as
the claim describes, with the infeasibility comparison performed against epsilon
rather than feastol; and the spec's example (`x1 + x2 ≥ 3` with `x2` fixed to 1)
produces the bound `x1 ≥ 2` and removes the row.  The hypotheses require a nonzero
coefficient and well-formed current bounds (between the infinity sentinels). -/
theorem C6_singleton_conversion (epsilon : ℚ) (lpcol : ℕ) (a : ℚ) (i : ℕ)
    (lhs rhs : ℚ) (sdpilb sdpiub : List ℚ) (lbrowidx ubrowidx : List ℤ)
    (fixingsfound : Bool) (heps : 0 ≤ epsilon) (ha : a ≠ 0)
    (hlen1 : lpcol < sdpilb.length) (hlen2 : lpcol < sdpiub.length)
    (hlb : - sdpiInfinity ≤ sdpilb.getD lpcol 0) (hub : sdpiub.getD lpcol 0 ≤ sdpiInfinity) :
    convertSingletonRow epsilon lpcol a i lhs rhs sdpilb sdpiub lbrowidx ubrowidx
        fixingsfound
      = singletonRowSpec epsilon lpcol a i lhs rhs sdpilb sdpiub lbrowidx ubrowidx
        fixingsfound ∧
    (prepareLPData exC6ex [0, 1] [10, 1]).sdpilb.getD 0 0 = 2 ∧
    (prepareLPData exC6ex [0, 1] [10, 1]).sdpilpindchanges = [-1] ∧
    (prepareLPData exC6ex [0, 1] [10, 1]).infeasible = false := by
  have hex : (prepareLPData exC6ex [0, 1] [10, 1]).sdpilb.getD 0 0 = 2 ∧
      (prepareLPData exC6ex [0, 1] [10, 1]).sdpilpindchanges = [-1] ∧
      (prepareLPData exC6ex [0, 1] [10, 1]).infeasible = false := by decide
  refine ⟨?_, hex.1, hex.2.1, hex.2.2⟩
  have hgl : ∀ x : ℚ, (sdpilb.set lpcol x).getD lpcol 0 = x := fun x => by
    rw [List.getD_eq_getElem _ _ (by simpa using hlen1)]
    simp
  have hgu : ∀ x : ℚ, (sdpiub.set lpcol x).getD lpcol 0 = x := fun x => by
    rw [List.getD_eq_getElem _ _ (by simpa using hlen2)]
    simp
  have hinf1 : ¬ (- sdpiInfinity > sdpilb.getD lpcol 0 + epsilon) := by
    push_neg
    linarith
  have hinf2 : ¬ (sdpiInfinity < sdpiub.getD lpcol 0 - epsilon) := by
    push_neg
    linarith
  unfold convertSingletonRow singletonRowSpec
  rcases ha.lt_or_lt with hneg | hpos
  · have h1 : ¬ a > 0 := not_lt.mpr hneg.le
    by_cases hrf : rhs < sdpiInfinity <;> by_cases hlf : lhs > - sdpiInfinity
    · by_cases hS1 : rhs / a > sdpilb.getD lpcol 0 + epsilon <;>
        by_cases hS2 : lhs / a < sdpiub.getD lpcol 0 - epsilon <;>
        simp only [hS1, hS2, h1, hneg, hrf, hlf, hgl, hgu, if_true, if_false,
          ite_true, ite_false, decide_True, decide_False, eq_self_iff_true,
          Bool.true_eq_false, Bool.false_eq_true, not_false_iff, not_true]
    · by_cases hS1 : rhs / a > sdpilb.getD lpcol 0 + epsilon <;>
        simp only [hS1, hinf2, h1, hneg, hrf, hlf, hgl, hgu, if_true, if_false,
          ite_true, ite_false, decide_True, decide_False, eq_self_iff_true,
          Bool.true_eq_false, Bool.false_eq_true, not_false_iff, not_true]
    · by_cases hS2 : lhs / a < sdpiub.getD lpcol 0 - epsilon <;>
        simp only [hS2, hinf1, h1, hneg, hrf, hlf, hgl, hgu, if_true, if_false,
          ite_true, ite_false, decide_True, decide_False, eq_self_iff_true,
          Bool.true_eq_false, Bool.false_eq_true, not_false_iff, not_true]
    · simp only [hinf1, hinf2, h1, hneg, hrf, hlf, hgl, hgu, if_true, if_false,
        ite_true, ite_false, decide_True, decide_False, eq_self_iff_true,
        Bool.true_eq_false, Bool.false_eq_true, not_false_iff, not_true]
  · have h2 : ¬ a < 0 := not_lt.mpr hpos.le
    by_cases hrf : rhs < sdpiInfinity <;> by_cases hlf : lhs > - sdpiInfinity
    · by_cases hS1 : lhs / a > sdpilb.getD lpcol 0 + epsilon <;>
        by_cases hS2 : rhs / a < sdpiub.getD lpcol 0 - epsilon <;>
        simp only [hS1, hS2, h2, hpos, hrf, hlf, hgl, hgu, if_true, if_false,
          ite_true, ite_false, decide_True, decide_False, eq_self_iff_true,
          Bool.true_eq_false, Bool.false_eq_true, not_false_iff, not_true]
    · by_cases hS2 : rhs / a < sdpiub.getD lpcol 0 - epsilon <;>
        simp only [hS2, hinf1, h2, hpos, hrf, hlf, hgl, hgu, if_true, if_false,
          ite_true, ite_false, decide_True, decide_False, eq_self_iff_true,
          Bool.true_eq_false, Bool.false_eq_true, not_false_iff, not_true]
    · by_cases hS1 : lhs / a > sdpilb.getD lpcol 0 + epsilon <;>
        simp only [hS1, hinf2, h2, hpos, hrf, hlf, hgl, hgu, if_true, if_false,
          ite_true, ite_false, decide_True, decide_False, eq_self_iff_true,
          Bool.true_eq_false, Bool.false_eq_true, not_false_iff, not_true]
    · simp only [hinf1, hinf2, h2, hpos, hrf, hlf, hgl, hgu, if_true, if_false,
        ite_true, ite_false, decide_True, decide_False, eq_self_iff_true,
        Bool.true_eq_false, Bool.false_eq_true, not_false_iff, not_true]

/-- C6, witness: the amended theorem applied at the concrete singleton row of
`exC6cex` (coefficient 1, row 0, residual sides 9/100 and infinity). -/
theorem C6_singleton_conversion_witness :
    convertSingletonRow (1 / 100) 0 1 0 (9 / 100) sdpiInfinity [0] [1 / 20] [0] [0] false
      = singletonRowSpec (1 / 100) 0 1 0 (9 / 100) sdpiInfinity [0] [1 / 20] [0] [0] false ∧
    (prepareLPData exC6ex [0, 1] [10, 1]).sdpilb.getD 0 0 = 2 ∧
    (prepareLPData exC6ex [0, 1] [10, 1]).sdpilpindchanges = [-1] ∧
    (prepareLPData exC6ex [0, 1] [10, 1]).infeasible = false :=
  C6_singleton_conversion (1 / 100) 0 1 0 (9 / 100) sdpiInfinity [0] [1 / 20] [0] [0] false
    (by norm_num) (by norm_num) (by norm_num) (by norm_num)
    (by norm_num [sdpiInfinity]) (by norm_num [sdpiInfinity])

/-- The C7 counterexample instance: two integral variables in [0, 10], row 0 is
`x0 + x1 ≥ 1` and row 1 is `x0 ≥ 2`. -/
def exC7 : Sdpi :=
  { baseSdpi with
    nvars := 2
    obj := [0, 0]
    lb := [0, 0]
    ub := [10, 10]
    isintegral := [true, true]
    epsilon := 1 / 1000
    feastol := 1 / 100
    nlpcons := 2
    lplhs := [1, 2]
    lprhs := [sdpiInfinity, sdpiInfinity]
    lpnnonz := 3
    lpbeg := [0, 2]
    lpind := [0, 1, 0]
    lpval := [1, 1, 1] }

unseal Rat.add Rat.mul Rat.sub Rat.inv in
/-- C7, counterexample: the first pass on `exC7` reports no fixing and no
infeasibility and keeps row 0 (`sdpilpindchanges = [0, -1]`), while tightening the
lower bound of `x0` to 2 via row 1.  The second pass on the resulting bounds keeps
the bounds and still reports no fixing, but drops row 0 as redundant
(`sdpilpindchanges = [-1, -1]`): the index-change map and the compacted row count
differ, so the pass is not idempotent under the claim's hypotheses. -/
theorem C7_cex_second_pass_differs :
    (prepareLPData exC7 [0, 0] [10, 10]).fixingsfound = false ∧
    (prepareLPData exC7 [0, 0] [10, 10]).infeasible = false ∧
    (prepareLPData exC7 (prepareLPData exC7 [0, 0] [10, 10]).sdpilb
        (prepareLPData exC7 [0, 0] [10, 10]).sdpiub).sdpilb
      = (prepareLPData exC7 [0, 0] [10, 10]).sdpilb ∧
    (prepareLPData exC7 (prepareLPData exC7 [0, 0] [10, 10]).sdpilb
        (prepareLPData exC7 [0, 0] [10, 10]).sdpiub).fixingsfound = false ∧
    (prepareLPData exC7 [0, 0] [10, 10]).sdpilpindchanges = [0, -1] ∧
    (prepareLPData exC7 (prepareLPData exC7 [0, 0] [10, 10]).sdpilb
        (prepareLPData exC7 [0, 0] [10, 10]).sdpiub).sdpilpindchanges = [-1, -1] ∧
    (prepareLPData exC7 (prepareLPData exC7 [0, 0] [10, 10]).sdpilb
        (prepareLPData exC7 [0, 0] [10, 10]).sdpiub).sdpilpindchanges
      ≠ (prepareLPData exC7 [0, 0] [10, 10]).sdpilpindchanges := by
  decide

/-- C7, amended: the correct fixed-point notion is that the pass changes no bounds.
If one run of `prepareLPData` returns its input bounds unchanged, then a second run
on the resulting bounds reproduces the entire first result — identical tightened
bounds, identical row index-change map, identical compacted rows — and reports a
fixing only if the first run did. -/
theorem C7_prepare_idempotent_on_fixed_bounds (sdpi : Sdpi) (lb0 ub0 : List ℚ)
    (hlb : (prepareLPData sdpi lb0 ub0).sdpilb = lb0)
    (hub : (prepareLPData sdpi lb0 ub0).sdpiub = ub0) :
    prepareLPData sdpi (prepareLPData sdpi lb0 ub0).sdpilb (prepareLPData sdpi lb0 ub0).sdpiub
      = prepareLPData sdpi lb0 ub0 ∧
    ((prepareLPData sdpi lb0 ub0).fixingsfound = false →
      (prepareLPData sdpi (prepareLPData sdpi lb0 ub0).sdpilb
        (prepareLPData sdpi lb0 ub0).sdpiub).fixingsfound = false) := by
  rw [hlb, hub]
  exact ⟨rfl, fun h => h⟩

unseal Rat.add Rat.mul Rat.sub Rat.inv in
/-- C7, witness: `exC7` with the already-tightened bounds [2, 0] and [10, 10] is a
bound fixed point, and the second pass reproduces the first. -/
theorem C7_prepare_idempotent_on_fixed_bounds_witness :
    prepareLPData exC7 (prepareLPData exC7 [2, 0] [10, 10]).sdpilb
        (prepareLPData exC7 [2, 0] [10, 10]).sdpiub
      = prepareLPData exC7 [2, 0] [10, 10] ∧
    ((prepareLPData exC7 [2, 0] [10, 10]).fixingsfound = false →
      (prepareLPData exC7 (prepareLPData exC7 [2, 0] [10, 10]).sdpilb
        (prepareLPData exC7 [2, 0] [10, 10]).sdpiub).fixingsfound = false) :=
  C7_prepare_idempotent_on_fixed_bounds exC7 [2, 0] [10, 10] (by decide) (by decide)

/-
Penalty escalation (sdpi.c lines 3431–3614).
-/

/-- `MIN_GAPTOL` (sdpi.c line 197): 1e-10. -/
def MIN_GAPTOL : ℚ := 1 / 10 ^ 10

/-- Result of one backend call, as observed through the solver status and value
queries (the backend solver is an external collaborator). -/
structure BRes where
  acceptable : Bool
  timelimexc : Bool
  wasSolved : Bool
  isOptimal : Bool
  dualInfeasible : Bool
  objval : ℚ
  feasorig : Bool
  penaltybound : Bool
  deriving DecidableEq

/-- Configuration of the escalation loop.  `ppfact` and `gtfact` are the factors the
source computes with `pow` at lines 3501–3507; since n-th roots are not rational they
enter the model as parameters (for `maxp = p₀` the source value is
`pow(1, 1/n) = 1` exactly). -/
structure PenCfg where
  ppfact : ℚ
  gtfact : ℚ
  maxp : ℚ
  epsilon : ℚ
  mingaptol : ℚ
  gaptol0 : ℚ
  deriving DecidableEq

/-- Mutable state of the escalation loop: penalty parameter, gap tolerance, the flags
of the last backend call, the best bound and the number of backend calls made. -/
structure LoopState where
  p : ℚ
  gt : ℚ
  feasorig : Bool
  acc : Bool
  tlim : Bool
  bestbound : ℚ
  calls : ℕ
  deriving DecidableEq

/-- Loop guard (sdpi.c lines 3511–3512): continue while the last result is not
acceptable-and-feasible, the penalty parameter is below `maxpenaltyparam + epsilon`,
the gap tolerance is above `0.99 * MIN_GAPTOL`, and no time limit was hit. -/
def penGuard (cfg : PenCfg) (st : LoopState) : Bool :=
  (! st.acc || ! st.feasorig) && decide (st.p < cfg.maxp + cfg.epsilon) &&
    decide (st.gt > 99 / 100 * cfg.mingaptol) && ! st.tlim

/-- One iteration of the escalation loop (sdpi.c lines 3514–3565): a backend call with
result `r`, then either the penalty parameter grows (no convergence, or infeasible for
the original problem with the penalty bound active) or the gap tolerance shrinks
(infeasible for the original problem with the penalty bound inactive); on an
acceptable solve the best bound is updated first. -/
def penStep (cfg : PenCfg) (r : BRes) (st : LoopState) : LoopState :=
  let st' := { st with
    acc := r.acceptable
    tlim := r.timelimexc
    feasorig := r.feasorig
    calls := st.calls + 1 }
  if ¬ r.acceptable then { st' with p := st'.p * cfg.ppfact }
  else
    let st'' := if r.objval > st'.bestbound + cfg.gaptol0 then { st' with bestbound := r.objval }
      else st'
    if ¬ r.feasorig then
      if r.penaltybound then { st'' with p := st''.p * cfg.ppfact }
      else { st'' with gt := st''.gt * cfg.gtfact }
    else st''

/-- The escalation loop, fuelled; the Boolean result records whether the loop reached
its exit condition (rather than running out of fuel). -/
def penLoop (cfg : PenCfg) (stream : ℕ → BRes) : ℕ → LoopState → LoopState × Bool
  | 0, st => (st, false)
  | fuel + 1, st =>
    if penGuard cfg st then penLoop cfg stream fuel (penStep cfg (stream st.calls) st)
    else (st, true)

/-- Result of the post-primary-solve phase of `SCIPsdpiSolve`. -/
structure PhaseResult where
  solved : Bool
  infeasible : Bool
  penalty : Bool
  bestbound : ℚ
  loopCalls : ℕ
  penCheckCall : Option (ℚ × Bool)
  deriving DecidableEq

/-- The phase of `SCIPsdpiSolve` after the primary backend solve (sdpi.c lines
3431–3614), in the release build with the Slater check off.  On entry `solved` is true
(line 3402).  If the primary result is not acceptable and no time limit was hit, the
backend's penalty formulation is solved once with penalty parameter 1.0 and the
objective replaced (`withobj = FALSE`); a strictly positive optimal value beyond
`peninfeasadjust * max(feastol, gaptol)`, or a solved dual-infeasible status, proves
infeasibility and ends the solve; otherwise the escalation loop runs. -/
def penaltyPhase (sdpi : Sdpi) (ppfact gtfact : ℚ) (primary pencheck : BRes)
    (stream : ℕ → BRes) (fuel : ℕ) : PhaseResult :=
  if primary.acceptable = false ∧ primary.timelimexc = false then
    let objval := if pencheck.wasSolved then pencheck.objval else - sdpiInfinity
    if (pencheck.isOptimal = true ∧
          objval > sdpi.peninfeasadjust * max sdpi.feastol sdpi.gaptol) ∨
        (pencheck.wasSolved = true ∧ pencheck.dualInfeasible = true) then
      ⟨true, true, true, - sdpiInfinity, 0, some (1, false)⟩
    else
      let cfg : PenCfg :=
        ⟨ppfact, gtfact, sdpi.maxpenaltyparam, sdpi.epsilon, MIN_GAPTOL, sdpi.gaptol⟩
      let st0 : LoopState :=
        ⟨sdpi.penaltyparam, sdpi.gaptol, false, pencheck.acceptable, pencheck.timelimexc,
          - sdpiInfinity, 0⟩
      let st := (penLoop cfg stream fuel st0).1
      if st.acc = true ∧ st.feasorig = true then
        ⟨true, false, true, st.bestbound, st.calls, some (1, false)⟩
      else
        ⟨false, false, true, st.bestbound, st.calls, some (1, false)⟩
  else
    ⟨true, false, false, - sdpiInfinity, 0, none⟩

/-- The all-unacceptable backend stream used by the C2 counterexample. -/
def cexStream : ℕ → BRes := fun _ => ⟨false, false, false, false, false, 0, false, false⟩

/-- The C2 counterexample configuration: the defaults `penaltyparam = 1e5` and
`npenaltyincr = 8` with `maxpenaltyparam` lowered to `1e5` (allowed: the claim only
requires `maxpenaltyparam ≥ penaltyparam`); then the source computes
`penaltyparamfact = pow(1e5/1e5, 1/8) = 1`. -/
def cexCfg : PenCfg := ⟨1, 1 / 2, 100000, 1 / 10 ^ 9, MIN_GAPTOL, 1 / 10 ^ 4⟩

/-- Initial loop state for the C2 counterexample. -/
def cexSt0 : LoopState := ⟨100000, 1 / 10 ^ 4, false, false, false, - sdpiInfinity, 0⟩

lemma cex_penLoop_runs_forever : ∀ (fuel : ℕ) (st : LoopState), st.p = 100000 →
    st.gt = 1 / 10 ^ 4 → st.acc = false → st.tlim = false →
    (penLoop cexCfg cexStream fuel st).2 = false ∧
    (penLoop cexCfg cexStream fuel st).1.calls = st.calls + fuel := by
  intro fuel
  induction fuel with
  | zero =>
    intro st h1 h2 h3 h4
    exact ⟨rfl, rfl⟩
  | succ n ih =>
    intro st h1 h2 h3 h4
    have hg : penGuard cexCfg st = true := by
      unfold penGuard cexCfg MIN_GAPTOL
      rw [h1, h2, h3, h4]
      norm_num
    have hstep : penStep cexCfg (cexStream st.calls) st
        = { st with
            acc := false
            tlim := false
            feasorig := false
            calls := st.calls + 1
            p := st.p * 1 } := by
      unfold penStep cexStream cexCfg
      simp
    rw [penLoop, if_pos hg, hstep]
    have := ih { st with
        acc := false
        tlim := false
        feasorig := false
        calls := st.calls + 1
        p := st.p * 1 }
      (by rw [h1]; norm_num) h2 rfl rfl
    refine ⟨this.1, ?_⟩
    rw [this.2]
    show st.calls + 1 + n = st.calls + (n + 1)
    omega

/-- C2, counterexample: with the default configuration except
`maxpenaltyparam = penaltyparam = 1e5` (satisfying all hypotheses of the claim:
penaltyparam > 0, maxpenaltyparam ≥ penaltyparam, npenaltyincr = 8 ≥ 0,
gaptol = 1e-4 > MIN_GAPTOL), the source's factor is `pow(1, 1/8) = 1` (third
conjunct, over ℝ), so a backend that never returns an acceptable result keeps the
escalation loop running: after `2·npenaltyincr + 1000 = 1016` backend calls it has
still not terminated, refuting the claimed `2·npenaltyincr + O(1)` bound. -/
theorem C2_cex_escalation_unbounded :
    (penLoop cexCfg cexStream (2 * 8 + 1000) cexSt0).2 = false ∧
    (penLoop cexCfg cexStream (2 * 8 + 1000) cexSt0).1.calls = 2 * 8 + 1000 ∧
    (1 : ℝ) ^ ((1 : ℝ) / 8) = 1 := by
  have h := cex_penLoop_runs_forever (2 * 8 + 1000) cexSt0 rfl rfl rfl rfl
  exact ⟨h.1, h.2, Real.one_rpow _⟩

lemma penLoop_bounded_aux (cfg : PenCfg) (stream : ℕ → BRes)
    (p0 gt0 : ℚ) (N₁ N₂ : ℕ)
    (h₁ : cfg.maxp + cfg.epsilon ≤ p0 * cfg.ppfact ^ N₁)
    (h₂ : gt0 * cfg.gtfact ^ N₂ ≤ 99 / 100 * cfg.mingaptol) :
    ∀ (fuel : ℕ) (st : LoopState) (k₁ k₂ : ℕ), k₁ ≤ N₁ → k₂ ≤ N₂ →
      st.p = p0 * cfg.ppfact ^ k₁ → st.gt = gt0 * cfg.gtfact ^ k₂ →
      (N₁ - k₁) + (N₂ - k₂) + 2 ≤ fuel →
      (penLoop cfg stream fuel st).2 = true ∧
      (penLoop cfg stream fuel st).1.calls ≤ st.calls + ((N₁ - k₁) + (N₂ - k₂) + 1) := by
  intro fuel
  induction fuel with
  | zero =>
    intro st k₁ k₂ hk₁ hk₂ hsp hsgt hfuel
    omega
  | succ m ih =>
    intro st k₁ k₂ hk₁ hk₂ hsp hsgt hfuel
    by_cases hguard : penGuard cfg st = true
    · -- the loop runs one more iteration
      have hglt : st.p < cfg.maxp + cfg.epsilon ∧ st.gt > 99 / 100 * cfg.mingaptol := by
        unfold penGuard at hguard
        simp only [Bool.and_eq_true, decide_eq_true_eq] at hguard
        exact ⟨hguard.1.1.2, hguard.1.2⟩
      have hkp : k₁ < N₁ := by
        by_contra hcon
        have hk : k₁ = N₁ := le_antisymm hk₁ (not_lt.mp hcon)
        rw [hsp, hk] at hglt
        linarith [hglt.1, h₁]
      have hkg : k₂ < N₂ := by
        by_contra hcon
        have hk : k₂ = N₂ := le_antisymm hk₂ (not_lt.mp hcon)
        rw [hsgt, hk] at hglt
        linarith [hglt.2, h₂]
      rw [penLoop, if_pos hguard]
      set r := stream st.calls with hr
      have hcalls : (penStep cfg r st).calls = st.calls + 1 := by
        simp only [penStep]
        split_ifs <;> rfl
      rcases hra : r.acceptable
      · -- not acceptable: the penalty parameter is multiplied
        have hstep : penStep cfg r st = { st with
            acc := r.acceptable
            tlim := r.timelimexc
            feasorig := r.feasorig
            calls := st.calls + 1
            p := st.p * cfg.ppfact } := by
          unfold penStep
          simp [hra]
        have := ih (penStep cfg r st) (k₁ + 1) k₂ hkp hk₂
          (by rw [hstep]; show st.p * cfg.ppfact = _; rw [hsp]; ring)
          (by rw [hstep]; exact hsgt)
          (by omega)
        refine ⟨this.1, ?_⟩
        calc (penLoop cfg stream m (penStep cfg r st)).1.calls
            ≤ (penStep cfg r st).calls + ((N₁ - (k₁ + 1)) + (N₂ - k₂) + 1) := this.2
          _ ≤ st.calls + ((N₁ - k₁) + (N₂ - k₂) + 1) := by rw [hcalls]; omega
      · rcases hrf : r.feasorig
        · rcases hrp : r.penaltybound
          · -- acceptable, infeasible for the original, penalty bound inactive:
            -- the gap tolerance is multiplied
            have hstp : (penStep cfg r st).p = st.p := by
              simp only [penStep]
              split_ifs <;> simp_all
            have hstgt : (penStep cfg r st).gt = st.gt * cfg.gtfact := by
              simp only [penStep]
              split_ifs <;> simp_all
            have := ih (penStep cfg r st) k₁ (k₂ + 1) hk₁ hkg
              (by rw [hstp, hsp]) (by rw [hstgt, hsgt]; ring) (by omega)
            refine ⟨this.1, ?_⟩
            calc (penLoop cfg stream m (penStep cfg r st)).1.calls
                ≤ (penStep cfg r st).calls + ((N₁ - k₁) + (N₂ - (k₂ + 1)) + 1) := this.2
              _ ≤ st.calls + ((N₁ - k₁) + (N₂ - k₂) + 1) := by rw [hcalls]; omega
          · -- acceptable, infeasible for the original, penalty bound active:
            -- the penalty parameter is multiplied
            have hstp : (penStep cfg r st).p = st.p * cfg.ppfact := by
              simp only [penStep]
              split_ifs <;> simp_all
            have hstgt : (penStep cfg r st).gt = st.gt := by
              simp only [penStep]
              split_ifs <;> simp_all
            have := ih (penStep cfg r st) (k₁ + 1) k₂ hkp hk₂
              (by rw [hstp, hsp]; ring) (by rw [hstgt, hsgt]) (by omega)
            refine ⟨this.1, ?_⟩
            calc (penLoop cfg stream m (penStep cfg r st)).1.calls
                ≤ (penStep cfg r st).calls + ((N₁ - (k₁ + 1)) + (N₂ - k₂) + 1) := this.2
              _ ≤ st.calls + ((N₁ - k₁) + (N₂ - k₂) + 1) := by rw [hcalls]; omega
        · -- acceptable and feasible for the original: the next guard check exits
          have hstacc : (penStep cfg r st).acc = true := by
            simp only [penStep]
            split_ifs <;> simp_all
          have hstfeas : (penStep cfg r st).feasorig = true := by
            simp only [penStep]
            split_ifs <;> simp_all
          have hguard' : penGuard cfg (penStep cfg r st) = false := by
            unfold penGuard
            rw [hstacc, hstfeas]
            simp
          obtain ⟨m', rfl⟩ : ∃ m', m = m' + 1 := ⟨m - 1, by omega⟩
          rw [penLoop, if_neg (by rw [hguard']; exact Bool.false_ne_true)]
          refine ⟨rfl, ?_⟩
          rw [hcalls]
          omega
    · rw [penLoop, if_neg hguard]
      refine ⟨rfl, ?_⟩
      show st.calls ≤ st.calls + (N₁ - k₁ + (N₂ - k₂) + 1)
      omega

/-- C2, amended: each iteration of the escalation loop performs one backend call and
then either multiplies the penalty parameter by `penaltyparamfact` or multiplies the
gap tolerance by `gaptolfact` (or was acceptable and feasible, ending the loop); the
loop exits as soon as the penalty parameter reaches `maxpenaltyparam + epsilon`, the
gap tolerance falls to `0.99 * MIN_GAPTOL` or below, an acceptable solution feasible
for the original problem is found, or the time limit is hit.  Whenever
`penaltyparamfact > 1` and `0 < gaptolfact < 1` — which the source's `pow` values
satisfy exactly when `maxpenaltyparam > penaltyparam` and `gaptol > MIN_GAPTOL` — the
loop terminates after at most `N₁ + N₂ + 1` backend calls, where `N₁` and `N₂` are
the crossing indices of the two geometric sequences (equal to `npenaltyincr + 1` for
the source's factors when the tolerances are not degenerate); for
`maxpenaltyparam = penaltyparam` the factor is 1 and no bound of the form
`2·npenaltyincr + O(1)` holds. -/
theorem C2_escalation_terminates (cfg : PenCfg) (stream : ℕ → BRes) (st0 : LoopState)
    (hf : 1 < cfg.ppfact) (hg0 : 0 < cfg.gtfact) (hg1 : cfg.gtfact < 1)
    (hp : 0 < st0.p) (hgt : 0 < st0.gt) (N₁ N₂ : ℕ)
    (h₁ : cfg.maxp + cfg.epsilon ≤ st0.p * cfg.ppfact ^ N₁)
    (h₂ : st0.gt * cfg.gtfact ^ N₂ ≤ 99 / 100 * cfg.mingaptol)
    (fuel : ℕ) (hfuel : N₁ + N₂ + 2 ≤ fuel) :
    (penLoop cfg stream fuel st0).2 = true ∧
    (penLoop cfg stream fuel st0).1.calls ≤ st0.calls + (N₁ + N₂ + 1) := by
  have := penLoop_bounded_aux cfg stream st0.p st0.gt N₁ N₂ h₁ h₂
    fuel st0 0 0 (Nat.zero_le _) (Nat.zero_le _) (by ring) (by ring) (by omega)
  simpa using this

/-- C2, witness: factors 2 and 1/2, `maxp + epsilon = 5`, start 1 with `N₁ = 3`
(`2³ = 8 ≥ 5`), gap tolerance 1 against floor `99/100` with `N₂ = 1`, fuel 6, on the
all-unacceptable stream. -/
theorem C2_escalation_terminates_witness :
    (penLoop ⟨2, 1 / 2, 4, 1, 1, 1⟩ cexStream 6 ⟨1, 1, false, false, false, 0, 0⟩).2 = true ∧
    (penLoop ⟨2, 1 / 2, 4, 1, 1, 1⟩ cexStream 6
        ⟨1, 1, false, false, false, 0, 0⟩).1.calls ≤ 0 + (3 + 1 + 1) :=
  C2_escalation_terminates ⟨2, 1 / 2, 4, 1, 1, 1⟩ cexStream
    ⟨1, 1, false, false, false, 0, 0⟩ (by norm_num) (by norm_num) (by norm_num)
    (by norm_num) (by norm_num) 3 1 (by norm_num) (by norm_num) 6 (by norm_num)

/-- C4: when the primary backend solve is not acceptable and the time limit was not
exceeded, `SCIPsdpiSolve` performs the penalty-formulation feasibility check (penalty
parameter 1.0, objective replaced), and if that solve is optimal with objective value
beyond `peninfeasadjust * max(feastol, gaptol)`, or the backend reports a solved
dual-infeasible status, the problem is recorded as infeasible with `solved = true`,
`penalty = true`, and no escalation-loop backend call is made. -/
theorem C4_penalty_check_infeasible (sdpi : Sdpi) (ppfact gtfact : ℚ)
    (primary pencheck : BRes) (stream : ℕ → BRes) (fuel : ℕ)
    (hacc : primary.acceptable = false) (htl : primary.timelimexc = false)
    (hcond : (pencheck.isOptimal = true ∧
        (if pencheck.wasSolved then pencheck.objval else - sdpiInfinity)
          > sdpi.peninfeasadjust * max sdpi.feastol sdpi.gaptol) ∨
      (pencheck.wasSolved = true ∧ pencheck.dualInfeasible = true)) :
    penaltyPhase sdpi ppfact gtfact primary pencheck stream fuel
      = ⟨true, true, true, - sdpiInfinity, 0, some (1, false)⟩ := by
  unfold penaltyPhase
  rw [if_pos ⟨hacc, htl⟩, if_pos hcond]

/-- C4, witness: a non-acceptable primary result and a penalty check that is optimal
with value 1 > peninfeasadjust · max(feastol, gaptol) = 10 · 1e-4. -/
theorem C4_penalty_check_infeasible_witness :
    penaltyPhase baseSdpi 2 (1 / 2) ⟨false, false, false, false, false, 0, false, false⟩
        ⟨false, false, true, true, false, 1, false, false⟩ cexStream 5
      = ⟨true, true, true, - sdpiInfinity, 0, some (1, false)⟩ :=
  C4_penalty_check_infeasible baseSdpi 2 (1 / 2)
    ⟨false, false, false, false, false, 0, false, false⟩
    ⟨false, false, true, true, false, 1, false, false⟩ cexStream 5 rfl rfl
    (Or.inl ⟨rfl, by norm_num [baseSdpi]⟩)

/-
All-fixed feasibility check (`checkFixedFeasibilitySdp`, sdpi.c lines 1372–1475) and
the solve orchestrator (`SCIPsdpiSolve`, sdpi.c lines 3110–3635).
-/

/-- Write entry (r, c) of a dense row-major matrix. -/
def matSet (m : List (List ℚ)) (r c : ℕ) (x : ℚ) : List (List ℚ) :=
  m.set r ((m.getD r []).set c x)

/-- Add to entry (r, c) of a dense row-major matrix. -/
def matAdd (m : List (List ℚ)) (r c : ℕ) (x : ℚ) : List (List ℚ) :=
  matSet m r c ((m.getD r []).getD c 0 + x)

/-- The dense matrix `checkFixedFeasibilitySdp` hands to LAPACK for one block
(sdpi.c lines 1411–1450): zero-initialised, the constant entries written with
negative sign (mirrored to both triangles), then for every block variable whose
fixed value has magnitude at least epsilon, its entries times the fixed value added
(mirrored).  Variables fixed to magnitude below epsilon are skipped. -/
def fixedBlockMatrix (epsilon : ℚ) (sdpilb : List ℚ) (blk : SdpBlock) : List (List ℚ) :=
  let m0 := List.replicate blk.blocksize (List.replicate blk.blocksize (0 : ℚ))
  let m1 := blk.constEnt.foldl (fun m e =>
    let m' := matSet m e.1 e.2.1 (- e.2.2)
    if e.1 ≠ e.2.1 then matSet m' e.2.1 e.1 (- e.2.2) else m') m0
  blk.blockvars.foldl (fun m bv =>
    let fixedval := sdpilb.getD bv.1 0
    if |fixedval| < epsilon then m
    else bv.2.foldl (fun m e =>
      let m' := matAdd m e.1 e.2.1 (fixedval * e.2.2)
      if e.1 ≠ e.2.1 then matAdd m' e.2.1 e.1 (fixedval * e.2.2) else m') m) m1

/-- The matrix the C3 claim describes, written from the claim's words: minus the
constant matrix plus the sum over all the block's variables of (fixed value times the
variable's coefficient matrix) — without the epsilon filter the code applies. -/
def claimC3Matrix (sdpilb : List ℚ) (blk : SdpBlock) : List (List ℚ) :=
  let m0 := List.replicate blk.blocksize (List.replicate blk.blocksize (0 : ℚ))
  let m1 := blk.constEnt.foldl (fun m e =>
    let m' := matSet m e.1 e.2.1 (- e.2.2)
    if e.1 ≠ e.2.1 then matSet m' e.2.1 e.1 (- e.2.2) else m') m0
  blk.blockvars.foldl (fun m bv =>
    let fixedval := sdpilb.getD bv.1 0
    bv.2.foldl (fun m e =>
      let m' := matAdd m e.1 e.2.1 (fixedval * e.2.2)
      if e.1 ≠ e.2.1 then matAdd m' e.2.1 e.1 (fixedval * e.2.2) else m') m) m1

/-- `checkFixedFeasibilitySdp` (sdpi.c lines 1372–1475): with all variables fixed,
build the dense matrix of each block and ask the external eigenvalue routine `eig`
for its smallest eigenvalue; the problem is declared infeasible as soon as one block
has smallest eigenvalue below `-feastol`.  Returns the resulting `infeasible` flag. -/
def checkFixedFeasibilitySdp (sdpi : Sdpi) (sdpilb : List ℚ)
    (eig : ℕ → List (List ℚ) → ℚ) : Bool :=
  sdpi.sdpblocks.any (fun blk =>
    decide (eig blk.blocksize (fixedBlockMatrix sdpi.epsilon sdpilb blk) < - sdpi.feastol))

lemma checkFixedFeasibilitySdp_iff (sdpi : Sdpi) (sdpilb : List ℚ)
    (eig : ℕ → List (List ℚ) → ℚ) :
    checkFixedFeasibilitySdp sdpi sdpilb eig = true ↔
      ∃ blk ∈ sdpi.sdpblocks,
        eig blk.blocksize (fixedBlockMatrix sdpi.epsilon sdpilb blk) < - sdpi.feastol := by
  unfold checkFixedFeasibilitySdp
  rw [List.any_eq_true]
  constructor
  · rintro ⟨blk, hmem, hblk⟩
    exact ⟨blk, hmem, of_decide_eq_true hblk⟩
  · rintro ⟨blk, hmem, hblk⟩
    exact ⟨blk, hmem, decide_eq_true hblk⟩

/-- Output of the external one-variable SDP solver (`SCIPsolveOneVarSDP`). -/
structure OneVarOut where
  objval : ℚ
  optval : ℚ
  certval : ℚ
  deriving DecidableEq

/-- `SCIPsdpiIsInfinity`: a value is treated as infinite if it is beyond ±1e20. -/
def SCIPsdpiIsInf (x : ℚ) : Bool :=
  decide (x ≤ - sdpiInfinity) || decide (x ≥ sdpiInfinity)

/-- Which branch of `SCIPsdpiSolve` produced the result. -/
inductive SolvePath where
  | timelimit
  | boundsInfeasible
  | prepInfeasible
  | allfixed
  | onevar
  | backend
  deriving DecidableEq

/-- The preprocessing fixed-point loop of `SCIPsdpiSolve` (sdpi.c lines 3212–3220):
re-run `prepareLPData` while it reports new fixings and no infeasibility.  Each
re-run fixes at least one more variable, so the fuel `nvars + 1` passed by the solve
model is never exhausted. -/
def prepFix (sdpi : Sdpi) : ℕ → List ℚ → List ℚ → PrepResult
  | 0, lb, ub => prepareLPData sdpi lb ub
  | fuel + 1, lb, ub =>
    let r := prepareLPData sdpi lb ub
    if r.fixingsfound = true ∧ r.infeasible = false then prepFix sdpi fuel r.sdpilb r.sdpiub
    else r

/-- The one-variable fast path of `SCIPsdpiSolve` (sdpi.c lines 3296–3376), entered
when exactly one variable is free and at most one SDP block exists.  Without SDP
blocks the problem is a box-constrained LP solved by the sign of the objective
coefficient (provided both bounds are finite); with one block the external
one-variable solver decides, `SCIP_INVALID` meaning no result (fall through to the
backend) and an infinite objective value meaning infeasibility. -/
def onevarStage (s2 : Sdpi) (cm : List (List Ent)) (nactivevars activevaridx : ℕ)
    (fixedvarsobjcontr : ℚ)
    (onevar : ℚ → ℚ → ℚ → ℕ → List Ent → List Ent → ℚ → ℚ → OneVarOut) : Sdpi :=
  if nactivevars = 1 ∧ s2.sdpblocks.length ≤ 1 then
    if s2.sdpblocks.length = 0 then
      if ¬ SCIPsdpiIsInf (s2.sdpilb.getD activevaridx 0) ∧
          ¬ SCIPsdpiIsInf (s2.sdpiub.getD activevaridx 0) then
        if s2.obj.getD activevaridx 0 ≥ 0 then
          { s2 with
            solved := true
            onevarsdpoptval := s2.sdpilb.getD activevaridx 0
            onevarsdpobjval :=
              s2.obj.getD activevaridx 0 * s2.sdpilb.getD activevaridx 0 + fixedvarsobjcontr
            onevarsdpidx := activevaridx
            solvedonevarsdp := OnevarStatus.optimal
            nonevarsdp := s2.nonevarsdp + 1 }
        else
          { s2 with
            solved := true
            onevarsdpoptval := s2.sdpiub.getD activevaridx 0
            onevarsdpobjval :=
              s2.obj.getD activevaridx 0 * s2.sdpiub.getD activevaridx 0 + fixedvarsobjcontr
            onevarsdpidx := activevaridx
            solvedonevarsdp := OnevarStatus.optimal
            nonevarsdp := s2.nonevarsdp + 1 }
      else s2
    else
      let blk := s2.sdpblocks.getD 0 ⟨0, [], []⟩
      let bv := (blk.blockvars.find? (fun bv => bv.1 == activevaridx)).getD (0, [])
      let out := onevar (s2.obj.getD activevaridx 0) (s2.sdpilb.getD activevaridx 0)
        (s2.sdpiub.getD activevaridx 0) blk.blocksize (cm.getD 0 []) bv.2
        sdpiInfinity s2.feastol
      if out.objval ≠ scipInvalid then
        { s2 with
          solved := true
          onevarsdpidx := activevaridx
          onevarsdpoptval := out.optval
          solvedonevarsdp :=
            if SCIPsdpiIsInf out.objval then OnevarStatus.infeasible else OnevarStatus.optimal
          onevarsdpobjval :=
            if SCIPsdpiIsInf out.objval then out.objval else out.objval + fixedvarsobjcontr
          nonevarsdp := s2.nonevarsdp + 1 }
      else s2
  else s2

/-- One step of the bounds-copy loop of `SCIPsdpiSolve` (sdpi.c lines 3185–3191):
copy variable v's bounds into the scratch arrays and flag infeasibility if they
conflict by more than feastol; the loop head re-checks the flag, so later
variables are left untouched once a conflict is found. -/
def copyBoundsStep (s : Sdpi) (v : ℕ) : Sdpi :=
  if s.infeasible then s
  else
    let s' := { s with
      sdpilb := s.sdpilb.set v (s.lb.getD v 0)
      sdpiub := s.sdpiub.set v (s.ub.getD v 0) }
    if s'.sdpiub.getD v 0 < s'.sdpilb.getD v 0 - s'.feastol then
      { s' with infeasible := true }
    else s'

/-- The remainder of `SCIPsdpiSolve` once the bounds have been copied and the
preprocessing loop has run (`s2` carries the resulting bounds and infeasibility
flag): the preprocessing-infeasibility exit (sdpi.c lines 3222–3236), the all-fixed
fast path (lines 3254–3270), the one-variable fast path (lines 3296–3376), and
otherwise the primary backend solve followed by the penalty phase (lines 3394–3614),
with the `sdpid` increment of line 3630 on the latter two paths. -/
def solveAfterPrep (s2 : Sdpi) (eig : ℕ → List (List ℚ) → ℚ)
    (onevar : ℚ → ℚ → ℚ → ℕ → List Ent → List Ent → ℚ → ℚ → OneVarOut)
    (primary pencheck : BRes) (stream : ℕ → BRes) (ppfact gtfact : ℚ)
    (loopfuel : ℕ) : Sdpi × SolvePath × ℕ :=
  if s2.infeasible then
    ({ s2 with solved := true, ninfeasible := s2.ninfeasible + 1 },
      SolvePath.prepInfeasible, 0)
  else
    let frees := (List.range s2.nvars).filter
      (fun v => ¬ isFixedB s2.epsilon s2.sdpilb s2.sdpiub v)
    let nactivevars := frees.length
    let activevaridx := frees.getLastD 0
    let fixedvarsobjcontr := ((List.range s2.nvars).map (fun v =>
      if isFixedB s2.epsilon s2.sdpilb s2.sdpiub v then
        s2.obj.getD v 0 * s2.sdpilb.getD v 0
      else 0)).sum
    if nactivevars = 0 then
      ({ s2 with
          allfixed := true
          infeasible := checkFixedFeasibilitySdp s2 s2.sdpilb eig
          solved := true
          nallfixed := s2.nallfixed + 1 }, SolvePath.allfixed, 0)
    else
      let cm := compConstMatAfterFixings s2 s2.sdpilb s2.sdpiub
      let s3 := onevarStage s2 cm nactivevars activevaridx fixedvarsobjcontr onevar
      if s3.solved then
        ({ s3 with sdpid := s3.sdpid + 1 }, SolvePath.onevar, 0)
      else
        let s4 := { s3 with solved := true }
        let ph := penaltyPhase s4 ppfact gtfact primary pencheck stream loopfuel
        let ncalls := 1 + (if primary.acceptable = false ∧ primary.timelimexc = false
          then 1 + ph.loopCalls else 0)
        ({ s4 with
            solved := ph.solved
            infeasible := ph.infeasible
            penalty := ph.penalty
            bestbound := ph.bestbound
            sdpid := s4.sdpid + 1 }, SolvePath.backend, ncalls)

/-- `SCIPsdpiSolve` (sdpi.c lines 3110–3635) in the release build with the Slater
check off: reset the result state; return immediately on a nonpositive time limit;
copy the bounds, stopping at the first conflicting pair; run the preprocessing loop;
then hand over to `solveAfterPrep`.  The external pieces are oracles: `eig`
(LAPACK), `onevar` (one-variable solver), `primary`/`pencheck`/`stream` (backend
results) and `ppfact`/`gtfact` (the `pow`-computed factors).  Returns the state, the
path taken and the number of backend calls.  In the release build `sdpid` is
incremented only on the one-variable and backend paths (line 3630); the increments
on the early-exit paths sit inside `SCIPdebugMessage` (lines 3196, 3225, 3260) whose
arguments are not evaluated. -/
def SCIPsdpiSolve (sdpi : Sdpi) (timelimit : ℚ) (eig : ℕ → List (List ℚ) → ℚ)
    (onevar : ℚ → ℚ → ℚ → ℕ → List Ent → List Ent → ℚ → ℚ → OneVarOut)
    (primary pencheck : BRes) (stream : ℕ → BRes) (ppfact gtfact : ℚ)
    (loopfuel : ℕ) : Sdpi × SolvePath × ℕ :=
  let s0 := { sdpi with
    penalty := false
    bestbound := - sdpiInfinity
    solved := false
    infeasible := false
    allfixed := false
    nsdpcalls := 0
    niterations := 0
    solvedonevarsdp := OnevarStatus.unsolved
    onevarsdpobjval := scipInvalid
    onevarsdpoptval := scipInvalid
    onevarsdpidx := -1 }
  if timelimit ≤ 0 then (s0, SolvePath.timelimit, 0)
  else
    let s1 := (List.range s0.nvars).foldl copyBoundsStep s0
    if s1.infeasible then
      ({ s1 with solved := true, ninfeasible := s1.ninfeasible + 1 },
        SolvePath.boundsInfeasible, 0)
    else
      let pr := prepFix s1 (s1.nvars + 1) s1.sdpilb s1.sdpiub
      solveAfterPrep
        { s1 with
          sdpilb := pr.sdpilb
          sdpiub := pr.sdpiub
          sdpilbrowidx := pr.sdpilbrowidx
          sdpiubrowidx := pr.sdpiubrowidx
          infeasible := pr.infeasible }
        eig onevar primary pencheck stream ppfact gtfact loopfuel

lemma copyBoundsStep_pres (s : Sdpi) (v : ℕ) :
    (copyBoundsStep s v).sdpid = s.sdpid ∧ (copyBoundsStep s v).sdpblocks = s.sdpblocks ∧
    (copyBoundsStep s v).epsilon = s.epsilon ∧ (copyBoundsStep s v).feastol = s.feastol := by
  simp only [copyBoundsStep]
  split_ifs <;> exact ⟨rfl, rfl, rfl, rfl⟩

lemma copyBounds_foldl_pres (l : List ℕ) (s : Sdpi) :
    (l.foldl copyBoundsStep s).sdpid = s.sdpid ∧
    (l.foldl copyBoundsStep s).sdpblocks = s.sdpblocks ∧
    (l.foldl copyBoundsStep s).epsilon = s.epsilon ∧
    (l.foldl copyBoundsStep s).feastol = s.feastol := by
  induction l generalizing s with
  | nil => exact ⟨rfl, rfl, rfl, rfl⟩
  | cons v t ih =>
    obtain ⟨a, b, c, d⟩ := ih (copyBoundsStep s v)
    obtain ⟨a', b', c', d'⟩ := copyBoundsStep_pres s v
    exact ⟨a.trans a', b.trans b', c.trans c', d.trans d'⟩

lemma copyBounds_foldl_sdpid (l : List ℕ) (s : Sdpi) :
    (l.foldl copyBoundsStep s).sdpid = s.sdpid := (copyBounds_foldl_pres l s).1

lemma copyBounds_foldl_sdpblocks (l : List ℕ) (s : Sdpi) :
    (l.foldl copyBoundsStep s).sdpblocks = s.sdpblocks := (copyBounds_foldl_pres l s).2.1

lemma copyBounds_foldl_epsilon (l : List ℕ) (s : Sdpi) :
    (l.foldl copyBoundsStep s).epsilon = s.epsilon := (copyBounds_foldl_pres l s).2.2.1

lemma copyBounds_foldl_feastol (l : List ℕ) (s : Sdpi) :
    (l.foldl copyBoundsStep s).feastol = s.feastol := (copyBounds_foldl_pres l s).2.2.2

lemma onevarStage_sdpid (s2 : Sdpi) (cm : List (List Ent)) (n a : ℕ) (f : ℚ)
    (ov : ℚ → ℚ → ℚ → ℕ → List Ent → List Ent → ℚ → ℚ → OneVarOut) :
    (onevarStage s2 cm n a f ov).sdpid = s2.sdpid := by
  simp only [onevarStage]
  split_ifs <;> rfl

lemma solveAfterPrep_allfixed (s : Sdpi) (eig : ℕ → List (List ℚ) → ℚ)
    (onevar : ℚ → ℚ → ℚ → ℕ → List Ent → List Ent → ℚ → ℚ → OneVarOut)
    (primary pencheck : BRes) (stream : ℕ → BRes) (ppfact gtfact : ℚ) (loopfuel : ℕ)
    (hpath : (solveAfterPrep s eig onevar primary pencheck stream
        ppfact gtfact loopfuel).2.1 = SolvePath.allfixed) :
    (solveAfterPrep s eig onevar primary pencheck stream
        ppfact gtfact loopfuel).1.solved = true ∧
    (solveAfterPrep s eig onevar primary pencheck stream
        ppfact gtfact loopfuel).2.2 = 0 ∧
    ((solveAfterPrep s eig onevar primary pencheck stream
        ppfact gtfact loopfuel).1.infeasible = true ↔
      ∃ blk ∈ s.sdpblocks,
        eig blk.blocksize (fixedBlockMatrix s.epsilon
          (solveAfterPrep s eig onevar primary pencheck stream
            ppfact gtfact loopfuel).1.sdpilb blk) < - s.feastol) := by
  simp only [solveAfterPrep] at hpath ⊢
  split_ifs at hpath ⊢
  all_goals try simp at hpath
  refine ⟨rfl, rfl, ?_⟩
  simp [checkFixedFeasibilitySdp_iff]

lemma solveAfterPrep_sdpid (s : Sdpi) (eig : ℕ → List (List ℚ) → ℚ)
    (onevar : ℚ → ℚ → ℚ → ℕ → List Ent → List Ent → ℚ → ℚ → OneVarOut)
    (primary pencheck : BRes) (stream : ℕ → BRes) (ppfact gtfact : ℚ) (loopfuel : ℕ) :
    (solveAfterPrep s eig onevar primary pencheck stream
        ppfact gtfact loopfuel).1.sdpid =
      (if (solveAfterPrep s eig onevar primary pencheck stream
            ppfact gtfact loopfuel).2.1 = SolvePath.onevar ∨
          (solveAfterPrep s eig onevar primary pencheck stream
            ppfact gtfact loopfuel).2.1 = SolvePath.backend
       then s.sdpid + 1 else s.sdpid) := by
  simp only [solveAfterPrep]
  split_ifs <;> simp_all [onevarStage_sdpid]

/-- Trivial oracles used by the concrete instances: an eigenvalue routine returning
the (0,0) entry (exact for 1×1 blocks), one returning 0, and a one-variable solver
that always reports `SCIP_INVALID` (no result). -/
def eig1 : ℕ → List (List ℚ) → ℚ := fun _ m => (m.getD 0 []).getD 0 0

def eig0 : ℕ → List (List ℚ) → ℚ := fun _ _ => 0

def onevar0 : ℚ → ℚ → ℚ → ℕ → List Ent → List Ent → ℚ → ℚ → OneVarOut :=
  fun _ _ _ _ _ _ _ _ => ⟨scipInvalid, scipInvalid, scipInvalid⟩

def bres0 : BRes := ⟨false, false, false, false, false, 0, false, false⟩

/-- C3 instance: one variable fixed to 1/20 with `epsilon = 1/10` and `feastol = 1`;
a single 1×1 block with variable matrix (1) and constant matrix (21/20). -/
def exC3 : Sdpi :=
  { baseSdpi with
    nvars := 1
    obj := [0]
    lb := [1 / 20]
    ub := [1 / 20]
    isintegral := [false]
    epsilon := 1 / 10
    feastol := 1
    sdpblocks := [⟨1, [(0, [(0, 0, 1)])], [(0, 0, 21 / 20)]⟩]
    sdpilb := [0]
    sdpiub := [0]
    sdpilbrowidx := [0]
    sdpiubrowidx := [0] }

unseal Rat.add Rat.mul Rat.sub Rat.inv in
/-- C3, counterexample: on `exC3` the solve takes the all-fixed path and declares the
problem infeasible, because the matrix the code builds skips the variable (its fixed
value 1/20 has magnitude below epsilon = 1/10), leaving the eigenvalue -21/20 below
-feastol = -1.  The matrix described by the claim — minus the constant matrix plus
fixed value times variable matrix, with no epsilon filter — is (-1), whose eigenvalue
is not strictly below -feastol, so the claim's "if and only if" fails. -/
theorem C3_cex_epsilon_skip_changes_verdict :
    (SCIPsdpiSolve exC3 1 eig1 onevar0 bres0 bres0 cexStream 2 (1 / 2) 5).2.1
        = SolvePath.allfixed ∧
    (SCIPsdpiSolve exC3 1 eig1 onevar0 bres0 bres0 cexStream 2 (1 / 2) 5).1.infeasible
        = true ∧
    ¬ (eig1 1 (claimC3Matrix
          (SCIPsdpiSolve exC3 1 eig1 onevar0 bres0 bres0 cexStream 2 (1 / 2) 5).1.sdpilb
          ⟨1, [(0, [(0, 0, 1)])], [(0, 0, 21 / 20)]⟩)
        < - exC3.feastol) := by
  decide

/-- C3 (amended): whenever `SCIPsdpiSolve` takes the all-fixed fast path, it performs
no backend call, sets `solved`, and declares the instance infeasible iff some SDP
block's dense matrix — built from the constant matrix and the contributions of the
variables whose fixed value has magnitude at least epsilon — has smallest eigenvalue
strictly below `-feastol`. -/
theorem C3_allfixed_check (sdpi : Sdpi) (timelimit : ℚ) (eig : ℕ → List (List ℚ) → ℚ)
    (onevar : ℚ → ℚ → ℚ → ℕ → List Ent → List Ent → ℚ → ℚ → OneVarOut)
    (primary pencheck : BRes) (stream : ℕ → BRes) (ppfact gtfact : ℚ) (loopfuel : ℕ)
    (hpath : (SCIPsdpiSolve sdpi timelimit eig onevar primary pencheck stream
        ppfact gtfact loopfuel).2.1 = SolvePath.allfixed) :
    (SCIPsdpiSolve sdpi timelimit eig onevar primary pencheck stream
        ppfact gtfact loopfuel).1.solved = true ∧
    (SCIPsdpiSolve sdpi timelimit eig onevar primary pencheck stream
        ppfact gtfact loopfuel).2.2 = 0 ∧
    ((SCIPsdpiSolve sdpi timelimit eig onevar primary pencheck stream
        ppfact gtfact loopfuel).1.infeasible = true ↔
      ∃ blk ∈ sdpi.sdpblocks,
        eig blk.blocksize (fixedBlockMatrix sdpi.epsilon
          (SCIPsdpiSolve sdpi timelimit eig onevar primary pencheck stream
            ppfact gtfact loopfuel).1.sdpilb blk) < - sdpi.feastol) := by
  simp only [SCIPsdpiSolve] at hpath ⊢
  split_ifs at hpath ⊢
  obtain ⟨hs, hn, hiff⟩ := solveAfterPrep_allfixed _ eig onevar primary pencheck stream
    ppfact gtfact loopfuel hpath
  refine ⟨hs, hn, ?_⟩
  rw [hiff]
  simp [copyBounds_foldl_sdpblocks, copyBounds_foldl_epsilon, copyBounds_foldl_feastol]

unseal Rat.add Rat.mul Rat.sub Rat.inv in
/-- Witness for C3: the all-fixed instance `exC3`. -/
theorem C3_allfixed_check_witness :
    (SCIPsdpiSolve exC3 1 eig1 onevar0 bres0 bres0 cexStream 2 (1 / 2) 5).1.solved
        = true ∧
    (SCIPsdpiSolve exC3 1 eig1 onevar0 bres0 bres0 cexStream 2 (1 / 2) 5).2.2 = 0 ∧
    ((SCIPsdpiSolve exC3 1 eig1 onevar0 bres0 bres0 cexStream 2 (1 / 2) 5).1.infeasible
        = true ↔
      ∃ blk ∈ exC3.sdpblocks,
        eig1 blk.blocksize (fixedBlockMatrix exC3.epsilon
          (SCIPsdpiSolve exC3 1 eig1 onevar0 bres0 bres0 cexStream 2 (1 / 2) 5).1.sdpilb
          blk) < - exC3.feastol) :=
  C3_allfixed_check exC3 1 eig1 onevar0 bres0 bres0 cexStream 2 (1 / 2) 5 (by decide)

unseal Rat.add Rat.mul Rat.sub Rat.inv in
/-- C9, counterexample: in the release build the early-exit paths do not touch
`sdpid`, because their increments sit inside `SCIPdebugMessage` whose arguments are
not evaluated.  A call with time limit 0 and a call taking the all-fixed path both
leave `sdpid` at its initial value 1. -/
theorem C9_cex_early_paths_keep_sdpid :
    (SCIPsdpiSolve baseSdpi 0 eig0 onevar0 bres0 bres0 cexStream 2 (1 / 2) 5).2.1
        = SolvePath.timelimit ∧
    (SCIPsdpiSolve baseSdpi 0 eig0 onevar0 bres0 bres0 cexStream 2 (1 / 2) 5).1.sdpid
        = 1 ∧
    (SCIPsdpiSolve exC3 1 eig0 onevar0 bres0 bres0 cexStream 2 (1 / 2) 5).1.sdpid
        = 1 ∧
    baseSdpi.sdpid = 1 ∧ exC3.sdpid = 1 := by
  decide

/-- C9 (amended): `sdpid` is incremented exactly once when the solve reaches the
one-variable fast path or the backend (sdpi.c line 3630) and is left unchanged on
the early-exit paths (nonpositive time limit, conflicting bounds, preprocessing
infeasibility, all variables fixed), whose increments are compiled away with the
debug output in the release build. -/
theorem C9_sdpid_increment (sdpi : Sdpi) (timelimit : ℚ) (eig : ℕ → List (List ℚ) → ℚ)
    (onevar : ℚ → ℚ → ℚ → ℕ → List Ent → List Ent → ℚ → ℚ → OneVarOut)
    (primary pencheck : BRes) (stream : ℕ → BRes) (ppfact gtfact : ℚ) (loopfuel : ℕ) :
    (SCIPsdpiSolve sdpi timelimit eig onevar primary pencheck stream
        ppfact gtfact loopfuel).1.sdpid =
      (if (SCIPsdpiSolve sdpi timelimit eig onevar primary pencheck stream
            ppfact gtfact loopfuel).2.1 = SolvePath.onevar ∨
          (SCIPsdpiSolve sdpi timelimit eig onevar primary pencheck stream
            ppfact gtfact loopfuel).2.1 = SolvePath.backend
       then sdpi.sdpid + 1 else sdpi.sdpid) := by
  simp only [SCIPsdpiSolve]
  split_ifs <;> try simp_all [copyBounds_foldl_sdpid]
  all_goals rw [solveAfterPrep_sdpid]
  all_goals simp_all [copyBounds_foldl_sdpid]

end SDPI
